import Mathlib

/-!
Verification of the OpenAI adapter-shim event core: a shallow embedding of
the event envelope factory, the Codex NDJSON event mapper, the prompt
renderer, the runner lifecycle and the application event buffer, together
with theorems settling the specification claims.

Python strings are modelled as `List Char` (Python `len` counts code
points, as does `List.length`).  JSON values parsed from NDJSON lines are
modelled by `JValue`; Python runtime exceptions that the mapper can raise
(`AttributeError`, `TypeError`, pydantic validation errors) are modelled by
`Except PyErr`.  `uuid.uuid4()` and `datetime.now()` are nondeterministic
at runtime; they are modelled as draws from ambient streams (`uuid`,
`time`) indexed by a draw counter, with the standard uniqueness assumption
on uuid4 expressed as injectivity of the stream where a claim needs it.
Wall-clock instants are abstract integer ticks, and a duration is the tick
difference; no claim depends on the numeric value of a duration.
-/

namespace AdapterShim

/-- Python strings, as lists of code points. -/
abbrev Str := List Char

/-- Coerce a Lean string literal to the Python-string model. -/
def str (s : String) : Str := s.data

/-- JSON values, as produced by `json.loads` on one NDJSON line. -/
inductive JValue where
  | null : JValue
  | bool : Bool → JValue
  | int : Int → JValue
  | str : Str → JValue
  | arr : List JValue → JValue
  | obj : List (Str × JValue) → JValue

/-- Python runtime exceptions the mapper can raise. -/
inductive PyErr where
  | attributeError : PyErr
  | typeError : PyErr
  | validationError : PyErr
  deriving DecidableEq

/-- First binding of a key in a JSON object's field list (dict lookup). -/
def jlookup (kvs : List (Str × JValue)) (k : Str) : Option JValue :=
  match kvs with
  | [] => none
  | (k', v) :: rest => if k' = k then some v else jlookup rest k

/-- Python `d.get(k, default)`: dictionaries return the binding or the
default; calling `.get` on any non-dict value raises `AttributeError`. -/
def JValue.get (v : JValue) (k : Str) (dflt : JValue) : Except PyErr JValue :=
  match v with
  | .obj kvs => .ok ((jlookup kvs k).getD dflt)
  | _ => .error .attributeError

/-- Python truthiness of a JSON value. -/
def JValue.truthy : JValue → Bool
  | .null => false
  | .bool b => b
  | .int n => n != 0
  | .str s => !s.isEmpty
  | .arr xs => !xs.isEmpty
  | .obj kvs => !kvs.isEmpty

/-- Python `a or b` on JSON values. -/
def JValue.orElse (a b : JValue) : JValue := if a.truthy then a else b

mutual

/-- Python `repr` of a JSON value (container elements are shown with
`repr`; quote escaping inside string reprs is not modelled, no claim
depends on it). -/
def pyRepr : JValue → Str
  | .null => str "None"
  | .bool true => str "True"
  | .bool false => str "False"
  | .int n => (toString n).data
  | .str s => '\'' :: s ++ ['\'']
  | .arr xs => '[' :: pyReprList xs ++ [']']
  | .obj kvs => '\x7b' :: pyReprFields kvs ++ ['\x7d']

/-- Comma-separated reprs of list elements. -/
def pyReprList : List JValue → Str
  | [] => []
  | [x] => pyRepr x
  | x :: xs => pyRepr x ++ str ", " ++ pyReprList xs

/-- Comma-separated reprs of dict entries. -/
def pyReprFields : List (Str × JValue) → Str
  | [] => []
  | [(k, v)] => pyRepr (.str k) ++ str ": " ++ pyRepr v
  | (k, v) :: kvs => pyRepr (.str k) ++ str ": " ++ pyRepr v ++ str ", " ++ pyReprFields kvs

end

/-- Python `str(v)`: identity on strings, `repr` otherwise. -/
def pyStr : JValue → Str
  | .str s => s
  | v => pyRepr v

/-- Python `len(v)`: defined on strings, lists and dicts; raises
`TypeError` on numbers, booleans and `None`. -/
def pyLen : JValue → Except PyErr Nat
  | .str s => .ok s.length
  | .arr xs => .ok xs.length
  | .obj kvs => .ok kvs.length
  | _ => .error .typeError

/-- Expect a JSON string (pydantic `str` field validation: any non-string
payload raises a validation error). -/
def JValue.asStr : JValue → Except PyErr Str
  | .str s => .ok s
  | _ => .error .validationError

mutual

/-- Python `==` between two JSON values (structural; no claim exercises the
Python `True == 1` numeric identification, which is not modelled). -/
def JValue.beq : JValue → JValue → Bool
  | .null, .null => true
  | .bool a, .bool b => a == b
  | .int a, .int b => a == b
  | .str a, .str b => a == b
  | .arr a, .arr b => JValue.beqList a b
  | .obj a, .obj b => JValue.beqFields a b
  | _, _ => false

/-- Elementwise `==` on JSON arrays. -/
def JValue.beqList : List JValue → List JValue → Bool
  | [], [] => true
  | a :: as_, b :: bs => JValue.beq a b && JValue.beqList as_ bs
  | _, _ => false

/-- Entrywise `==` on JSON objects. -/
def JValue.beqFields : List (Str × JValue) → List (Str × JValue) → Bool
  | [], [] => true
  | (ka, va) :: as_, (kb, vb) :: bs =>
    ka == kb && JValue.beq va vb && JValue.beqFields as_ bs
  | _, _ => false

end

/-- Python `v == s` for a string literal `s` (false, not an error, when `v`
is not a string). -/
def JValue.eqStr (v : JValue) (s : Str) : Bool :=
  match v with
  | .str t => t = s
  | _ => false

/-- Python `v == n` for an int literal `n` (Python identifies booleans with
0/1; other types compare unequal). -/
def JValue.eqInt (v : JValue) (n : Int) : Bool :=
  match v with
  | .int m => m = n
  | .bool b => (if b then (1 : Int) else 0) = n
  | _ => false

/-- Python `v[:n]` (strings and lists slice; other values raise
`TypeError`). -/
def pySliceTake (v : JValue) (n : Nat) : Except PyErr JValue :=
  match v with
  | .str s => .ok (.str (s.take n))
  | .arr xs => .ok (.arr (xs.take n))
  | _ => .error .typeError

/-- Python `v + s` for a string `s` on the right (raises `TypeError` unless
`v` is a string). -/
def pyAddStr (v : JValue) (s : Str) : Except PyErr JValue :=
  match v with
  | .str t => .ok (.str (t ++ s))
  | _ => .error .typeError

/-- Python iteration over a JSON value (`for i in v`): lists yield their
elements, strings their characters, dicts their keys; other values raise
`TypeError`. -/
def pyIter (v : JValue) : Except PyErr (List JValue) :=
  match v with
  | .arr xs => .ok xs
  | .str s => .ok (s.map (fun c => .str [c]))
  | .obj kvs => .ok (kvs.map (fun kv => .str kv.1))
  | _ => .error .typeError

/-- Whether a JSON value may be used as a dict key (Python lists and dicts
are unhashable). -/
def JValue.hashable : JValue → Bool
  | .arr _ => false
  | .obj _ => false
  | _ => true

/-- `os.path.basename` for POSIX paths: the part after the last slash. -/
def basename (p : Str) : Str :=
  (p.reverse.takeWhile (fun c => c != '/')).reverse

/-- The extension part of `os.path.splitext` on a separator-free name: the
suffix from the last dot, unless every character before that dot is itself
a dot (so names like `.bashrc` have no extension). -/
def splitextExt (base : Str) : Str :=
  let r := base.reverse
  match r.dropWhile (fun c => c != '.') with
  | [] => []
  | _ :: preRev =>
    if preRev.any (fun c => c != '.') then
      '.' :: (r.takeWhile (fun c => c != '.')).reverse
    else []

/-- `infer_artifact_kind` (event_mapper.py): artifact kind from the file
name. -/
def infer_artifact_kind (filePath : Str) : Str :=
  let base := basename filePath
  let ext := (splitextExt base).map Char.toLower
  if decide ((str ".test.") <:+: base) || decide ((str ".spec.") <:+: base)
      || (str "test_").isPrefixOf base then
    str "test"
  else if ext ∈ [str ".ts", str ".js", str ".py", str ".rs", str ".go",
      str ".java", str ".tsx", str ".jsx"] then
    str "code"
  else if ext ∈ [str ".md", str ".txt", str ".rst"] then
    str "document"
  else if ext ∈ [str ".json", str ".yaml", str ".yml", str ".toml",
      str ".ini", str ".cfg"] then
    str "config"
  else
    str "other"

/-! ## Wire-protocol event payloads (models.py)

Fields typed `Literal[...]` in the source are plain Python strings; they
are modelled as `Str`.  Float scores are modelled as rationals. -/

/-- `Provenance` (models.py). -/
structure Provenance where
  createdBy : Str
  createdAt : Str
  deriving DecidableEq

/-- `StatusEvent` (models.py). -/
structure StatusEvent where
  agentId : Str
  message : Str
  deriving DecidableEq

/-- `ToolApprovalEvent` (models.py); fields not set by this code base are
omitted. -/
structure ToolApprovalEvent where
  agentId : Str
  decisionId : Str
  toolName : Str
  toolArgs : JValue
  severity : Str
  confidence : ℚ
  blastRadius : Str

/-- `ToolCallEvent` (models.py). -/
structure ToolCallEvent where
  agentId : Str
  toolCallId : Str
  toolName : Str
  phase : Str
  input : Option JValue := none
  output : Option JValue := none
  approved : Bool := true
  durationMs : Option Int := none

/-- `ArtifactEvent` (models.py). -/
structure ArtifactEvent where
  agentId : Str
  artifactId : Str
  name : Str
  kind : Str
  workstream : Str
  status : Str
  qualityScore : ℚ
  provenance : Provenance
  uri : Option Str := none
  mimeType : Option Str := none
  sizeBytes : Option Nat := none

/-- `CompletionEvent` (models.py). -/
structure CompletionEvent where
  agentId : Str
  summary : Str
  artifactsProduced : List Str := []
  decisionsNeeded : List Str := []
  outcome : Str
  deriving DecidableEq

/-- `ErrorEvent` (models.py). -/
structure ErrorEvent where
  agentId : Str
  severity : Str
  message : Str
  recoverable : Bool
  category : Str
  deriving DecidableEq

/-- `LifecycleEvent` (models.py). -/
structure LifecycleEvent where
  agentId : Str
  action : Str
  reason : Option Str := none
  deriving DecidableEq

/-- `ProgressEvent` (models.py). -/
structure ProgressEvent where
  agentId : Str
  operationId : Str
  description : Str
  progressPct : ℚ
  deriving DecidableEq

/-- `AgentEvent`: the union of domain event payloads (models.py). -/
inductive AgentEvent where
  | status : StatusEvent → AgentEvent
  | toolApproval : ToolApprovalEvent → AgentEvent
  | toolCall : ToolCallEvent → AgentEvent
  | artifact : ArtifactEvent → AgentEvent
  | completion : CompletionEvent → AgentEvent
  | error : ErrorEvent → AgentEvent
  | lifecycle : LifecycleEvent → AgentEvent
  | progress : ProgressEvent → AgentEvent

/-- `AdapterEvent`: the sequenced envelope (models.py). -/
structure AdapterEvent where
  sourceEventId : Str
  sourceSequence : Nat
  sourceOccurredAt : Str
  runId : Str
  event : AgentEvent

/-! ## Codex event mapper (event_mapper.py)

The mapper draws `uuid.uuid4()` values and `datetime.now()` instants; both
are modelled as streams indexed by per-mapper draw counters.  A wall-clock
instant is an abstract integer tick (one tick = one millisecond), so the
`int(elapsed_seconds * 1000)` duration is the tick difference; `timeStr`
is the ISO rendering of the instant drawn at the same index. -/

/-- Ambient nondeterminism consumed by the mapper. -/
structure MapperCtx where
  uuid : Nat → Str
  time : Nat → Int
  timeStr : Nat → Str

/-- One entry of `_open_tool_calls`: the correlation record stored on a
"started" notification.  `toolName` is whatever JSON value the raw event
supplied; `filePath` is present only for `file_change` records. -/
structure ToolCallRec where
  toolCallId : Str
  toolName : JValue
  startTime : Int
  filePath : Option JValue := none

/-- Lookup in `_open_tool_calls` (a dict keyed by the external item id,
compared with Python `==`). -/
def keyLookup (kvs : List (JValue × ToolCallRec)) (k : JValue) : Option ToolCallRec :=
  match kvs with
  | [] => none
  | (k', v) :: rest => if JValue.beq k' k then some v else keyLookup rest k

/-- Removal from `_open_tool_calls` (the removing half of `dict.pop`). -/
def keyRemove (kvs : List (JValue × ToolCallRec)) (k : JValue) : List (JValue × ToolCallRec) :=
  match kvs with
  | [] => []
  | (k', v) :: rest => if JValue.beq k' k then rest else (k', v) :: keyRemove rest k

/-- Dict assignment `d[k] = v`: replace an existing binding in place, else
append. -/
def keySet (kvs : List (JValue × ToolCallRec)) (k : JValue) (v : ToolCallRec) :
    List (JValue × ToolCallRec) :=
  match kvs with
  | [] => [(k, v)]
  | (k', v') :: rest =>
    if JValue.beq k' k then (k, v) :: rest else (k', v') :: keySet rest k v

/-- `CodexEventMapper` state (`__init__` fields plus the draw counters of
the uuid/clock streams). -/
structure CodexEventMapper where
  agentId : Str
  workstream : Str
  sessionId : JValue
  turnCount : Nat
  openToolCalls : List (JValue × ToolCallRec)
  uuidDraws : Nat
  timeDraws : Nat

/-- `CodexEventMapper.__init__(agent_id, workstream)`. -/
def CodexEventMapper.init (agentId workstream : Str) : CodexEventMapper :=
  { agentId := agentId, workstream := workstream, sessionId := .null,
    turnCount := 0, openToolCalls := [], uuidDraws := 0, timeDraws := 0 }

/-- One `str(uuid.uuid4())` draw. -/
def CodexEventMapper.freshUuid (st : CodexEventMapper) (ctx : MapperCtx) :
    Str × CodexEventMapper :=
  (ctx.uuid st.uuidDraws, { st with uuidDraws := st.uuidDraws + 1 })

/-- One `datetime.now(timezone.utc)` draw, as an instant. -/
def CodexEventMapper.nowTick (st : CodexEventMapper) (ctx : MapperCtx) :
    Int × CodexEventMapper :=
  (ctx.time st.timeDraws, { st with timeDraws := st.timeDraws + 1 })

/-- One `datetime.now(timezone.utc)` draw, rendered with `strftime`. -/
def CodexEventMapper.nowStr (st : CodexEventMapper) (ctx : MapperCtx) :
    Str × CodexEventMapper :=
  (ctx.timeStr st.timeDraws, { st with timeDraws := st.timeDraws + 1 })

/-- `CodexEventMapper._handle_command`. -/
def CodexEventMapper.handleCommand (st : CodexEventMapper) (ctx : MapperCtx)
    (eventType : Str) (itemId : JValue) (data : JValue) :
    Except PyErr (List AgentEvent × CodexEventMapper) := do
  let item ← data.get (str "item") data
  if eventType = str "item.started" then
    let p := st.freshUuid ctx
    let toolCallId := p.1
    let st := p.2
    let d1 ← data.get (str "input") (.obj [])
    let d2 ← d1.get (str "command") (.str [])
    let d3 ← data.get (str "command") d2
    let command ← item.get (str "command") d3
    let q := st.nowTick ctx
    let st := q.2
    if itemId.hashable = false then throw .typeError
    let rec_ : ToolCallRec :=
      { toolCallId := toolCallId, toolName := .str (str "Bash"), startTime := q.1 }
    let st := { st with openToolCalls := keySet st.openToolCalls itemId rec_ }
    let ev : AgentEvent := .toolCall
      { agentId := st.agentId, toolCallId := toolCallId, toolName := str "Bash",
        phase := str "requested", input := some (.obj [(str "command", command)]),
        approved := true }
    return ([ev], st)
  else if eventType = str "item.completed" then
    if itemId.hashable = false then throw .typeError
    let tc := keyLookup st.openToolCalls itemId
    let st := { st with openToolCalls := keyRemove st.openToolCalls itemId }
    let pr : Str × CodexEventMapper :=
      match tc with
      | some r => (r.toolCallId, st)
      | none => st.freshUuid ctx
    let toolCallId := pr.1
    let st := pr.2
    let e1 ← data.get (str "status") (.int 0)
    let e2 ← data.get (str "exit_code") e1
    let exitCode ← item.get (str "exit_code") e2
    let dr : Option Int × CodexEventMapper :=
      match tc with
      | some r =>
        let q := st.nowTick ctx
        (some (q.1 - r.startTime), q.2)
      | none => (none, st)
    let durationMs := dr.1
    let st := dr.2
    let phase := if exitCode.eqInt 0 then str "completed" else str "failed"
    let o1 ← data.get (str "stdout") (.str [])
    let o2 ← data.get (str "output") o1
    let o3 ← item.get (str "output") o2
    let output ← item.get (str "aggregated_output") o3
    let ev : AgentEvent := .toolCall
      { agentId := st.agentId, toolCallId := toolCallId, toolName := str "Bash",
        phase := phase,
        output := some (.obj [(str "stdout", output), (str "exit_code", exitCode)]),
        approved := true, durationMs := durationMs }
    return ([ev], st)
  else
    return ([], st)

/-- The `item.completed` half of `_handle_file_change`, from the point
just after the correlation pop (`tc` is the popped record, if any). -/
def CodexEventMapper.fileChangeCompletedTail (st : CodexEventMapper) (ctx : MapperCtx)
    (filePath : JValue) (tc : Option ToolCallRec) :
    Except PyErr (List AgentEvent × CodexEventMapper) := do
  let pr : Str × CodexEventMapper :=
    match tc with
    | some r => (r.toolCallId, st)
    | none => st.freshUuid ctx
  let toolCallId := pr.1
  let st := pr.2
  let fp := filePath.orElse
    (match tc with
     | some r => r.filePath.getD (.str [])
     | none => .str [])
  let dr : Option Int × CodexEventMapper :=
    match tc with
    | some r =>
      let q := st.nowTick ctx
      (some (q.1 - r.startTime), q.2)
    | none => (none, st)
  let durationMs := dr.1
  let st := dr.2
  let toolEvent : AgentEvent := .toolCall
    { agentId := st.agentId, toolCallId := toolCallId, toolName := str "Edit",
      phase := str "completed", input := some (.obj [(str "file_path", fp)]),
      output := some (.obj [(str "success", .bool true)]),
      approved := true, durationMs := durationMs }
  if fp.truthy then
    let q := st.nowStr ctx
    let nowIso := q.1
    let p2 := q.2.freshUuid ctx
    let artifactId := p2.1
    let st := p2.2
    let fpStr ← match fp with
      | .str s => Except.ok s
      | _ => Except.error .typeError
    let art : AgentEvent := .artifact
      { agentId := st.agentId, artifactId := artifactId,
        name := basename fpStr, kind := infer_artifact_kind fpStr,
        workstream := st.workstream, status := str "draft",
        qualityScore := 0.5,
        provenance := { createdBy := st.agentId, createdAt := nowIso },
        uri := some fpStr }
    return ([toolEvent, art], st)
  else
    return ([toolEvent], st)

/-- `CodexEventMapper._handle_file_change`. -/
def CodexEventMapper.handleFileChange (st : CodexEventMapper) (ctx : MapperCtx)
    (eventType : Str) (itemId : JValue) (data : JValue) :
    Except PyErr (List AgentEvent × CodexEventMapper) := do
  let item ← data.get (str "item") data
  let f1 ← data.get (str "path") (.str [])
  let f2 ← data.get (str "file_path") f1
  let f3 ← item.get (str "path") f2
  let filePath ← item.get (str "file_path") f3
  if eventType = str "item.started" then
    let p := st.freshUuid ctx
    let toolCallId := p.1
    let q := p.2.nowTick ctx
    let st := q.2
    if itemId.hashable = false then throw .typeError
    let rec_ : ToolCallRec :=
      { toolCallId := toolCallId, toolName := .str (str "Edit"),
        startTime := q.1, filePath := some filePath }
    let st := { st with openToolCalls := keySet st.openToolCalls itemId rec_ }
    let ev : AgentEvent := .toolCall
      { agentId := st.agentId, toolCallId := toolCallId, toolName := str "Edit",
        phase := str "requested",
        input := some (.obj [(str "file_path", filePath)]), approved := true }
    return ([ev], st)
  else if eventType = str "item.completed" then
    if itemId.hashable = false then throw .typeError
    let tc := keyLookup st.openToolCalls itemId
    let st := { st with openToolCalls := keyRemove st.openToolCalls itemId }
    st.fileChangeCompletedTail ctx filePath tc
  else
    return ([], st)

/-- `CodexEventMapper._handle_mcp_tool`. -/
def CodexEventMapper.handleMcp (st : CodexEventMapper) (ctx : MapperCtx)
    (eventType : Str) (itemId : JValue) (data : JValue) :
    Except PyErr (List AgentEvent × CodexEventMapper) := do
  let item ← data.get (str "item") data
  let n1 ← data.get (str "name") (.str (str "mcp_tool"))
  let n2 ← data.get (str "tool_name") n1
  let n3 ← item.get (str "name") n2
  let toolName ← item.get (str "tool_name") n3
  if eventType = str "item.started" then
    let p := st.freshUuid ctx
    let toolCallId := p.1
    let q := p.2.nowTick ctx
    let st := q.2
    if itemId.hashable = false then throw .typeError
    let rec_ : ToolCallRec :=
      { toolCallId := toolCallId, toolName := toolName, startTime := q.1 }
    let st := { st with openToolCalls := keySet st.openToolCalls itemId rec_ }
    let i1 ← data.get (str "arguments") (.obj [])
    let i2 ← data.get (str "input") i1
    let i3 ← item.get (str "arguments") i2
    let inputV ← item.get (str "input") i3
    let toolNameS ← toolName.asStr
    let inputObj ← match inputV with
      | .obj kvs => Except.ok (JValue.obj kvs)
      | _ => Except.error .validationError
    let ev : AgentEvent := .toolCall
      { agentId := st.agentId, toolCallId := toolCallId, toolName := toolNameS,
        phase := str "requested", input := some inputObj, approved := true }
    return ([ev], st)
  else if eventType = str "item.completed" then
    if itemId.hashable = false then throw .typeError
    let tc := keyLookup st.openToolCalls itemId
    let st := { st with openToolCalls := keyRemove st.openToolCalls itemId }
    let pr : Str × CodexEventMapper :=
      match tc with
      | some r => (r.toolCallId, st)
      | none => st.freshUuid ctx
    let toolCallId := pr.1
    let st := pr.2
    let dr : Option Int × CodexEventMapper :=
      match tc with
      | some r =>
        let q := st.nowTick ctx
        (some (q.1 - r.startTime), q.2)
      | none => (none, st)
    let durationMs := dr.1
    let st := dr.2
    let o1 ← data.get (str "result") .null
    let o2 ← data.get (str "output") o1
    let o3 ← item.get (str "result") o2
    let outputV ← item.get (str "output") o3
    let tn := match tc with
      | some r => r.toolName
      | none => toolName
    let tnS ← tn.asStr
    let ev : AgentEvent := .toolCall
      { agentId := st.agentId, toolCallId := toolCallId, toolName := tnS,
        phase := str "completed", output := some outputV, approved := true,
        durationMs := durationMs }
    return ([ev], st)
  else
    return ([], st)

/-- The truncation step of the `agent_message` branch of `_handle_item`:
`if len(text) > 500: text = text[:497] + "..."`. -/
def truncateText (text1 : JValue) : Except PyErr JValue := do
  let n ← pyLen text1
  if 500 < n then do
    let sliced ← pySliceTake text1 497
    pyAddStr sliced (str "...")
  else
    pure text1

/-- `CodexEventMapper._handle_item`. -/
def CodexEventMapper.handleItem (st : CodexEventMapper) (ctx : MapperCtx)
    (eventType : Str) (data : JValue) :
    Except PyErr (List AgentEvent × CodexEventMapper) := do
  let item ← data.get (str "item") (.obj [])
  let t1 ← data.get (str "item_type") (.str [])
  let itemType ← item.get (str "type") t1
  let i1 ← data.get (str "id") (.str [])
  let i2 ← data.get (str "item_id") i1
  let itemId ← item.get (str "id") i2
  if itemType.eqStr (str "reasoning") then
    return ([], st)
  else if itemType.eqStr (str "command_execution") then
    st.handleCommand ctx eventType itemId data
  else if itemType.eqStr (str "file_change") then
    st.handleFileChange ctx eventType itemId data
  else if itemType.eqStr (str "agent_message") then
    if eventType = str "item.completed" then
      let x1 ← data.get (str "text") (.str [])
      let x2 ← data.get (str "content") x1
      let x3 ← item.get (str "content") x2
      let text0 ← item.get (str "text") x3
      let text1 := match text0 with
        | .arr xs => JValue.str (List.intercalate (str " ") (xs.map pyStr))
        | v => v
      let text2 ← truncateText text1
      let msg ← text2.asStr
      let ev : AgentEvent := .status { agentId := st.agentId, message := msg }
      return ([ev], st)
    else
      return ([], st)
  else if itemType.eqStr (str "mcp_tool_call") then
    st.handleMcp ctx eventType itemId data
  else if itemType.eqStr (str "todo_list") then
    if eventType = str "item.completed" then
      let j1 ← data.get (str "items") (.arr [])
      let itemsV ← item.get (str "items") j1
      let elems ← pyIter itemsV
      let flags ← elems.mapM (fun i => i.get (str "completed") (.bool false))
      let done := (flags.filter JValue.truthy).length
      let total ← pyLen itemsV
      let pct : ℚ := if 0 < total then (done : ℚ) / (total : ℚ) * 100 else 0
      let pr : JValue × CodexEventMapper :=
        if itemId.truthy then (itemId, st)
        else
          let u := st.freshUuid ctx
          (JValue.str u.1, u.2)
      let opId ← pr.1.asStr
      let descr := str "Todo: " ++ (toString done).data ++ str "/"
        ++ (toString total).data ++ str " completed"
      let ev : AgentEvent := .progress
        { agentId := st.agentId, operationId := opId, description := descr,
          progressPct := pct }
      return ([ev], pr.2)
    else
      return ([], st)
  else
    return ([], st)

/-- `CodexEventMapper.map_event`: dispatch on the top-level `type` field. -/
def CodexEventMapper.mapEvent (st : CodexEventMapper) (ctx : MapperCtx)
    (data : JValue) : Except PyErr (List AgentEvent × CodexEventMapper) := do
  let eventType ← data.get (str "type") (.str [])
  if eventType.eqStr (str "thread.started") then
    let s1 ← data.get (str "thread_id") .null
    let s2 ← data.get (str "id") .null
    return ([], { st with sessionId := s1.orElse s2 })
  else if eventType.eqStr (str "turn.started") then
    let st := { st with turnCount := st.turnCount + 1 }
    let msg := str "Turn " ++ (toString st.turnCount).data ++ str " started"
    let ev : AgentEvent := .status { agentId := st.agentId, message := msg }
    return ([ev], st)
  else if eventType.eqStr (str "turn.completed") then
    let usage ← data.get (str "usage") (.obj [])
    let inTok ← usage.get (str "input_tokens") (.int 0)
    let outTok ← usage.get (str "output_tokens") (.int 0)
    let msg := str "Turn completed (in: " ++ pyStr inTok ++ str ", out: "
      ++ pyStr outTok ++ str " tokens)"
    let ev : AgentEvent := .status { agentId := st.agentId, message := msg }
    return ([ev], st)
  else if eventType.eqStr (str "turn.failed") then
    let errObj ← data.get (str "error") (.obj [])
    let msgV ← errObj.get (str "message") (.str (str "Turn failed"))
    let msg ← msgV.asStr
    let ev : AgentEvent := .error
      { agentId := st.agentId, severity := str "high", message := msg,
        recoverable := false, category := str "model" }
    return ([ev], st)
  else
    match eventType with
    | .str s =>
      if s = str "item.started" ∨ s = str "item.completed" then
        st.handleItem ctx s data
      else
        return ([], st)
    | _ => return ([], st)

/-! ## Event envelope factory (events.py) -/

/-- The ambient nondeterminism consumed by `EventFactory.wrap`: the stream
of `str(uuid.uuid4())` results and the stream of
`datetime.now(timezone.utc).isoformat()` strings, indexed by draw count. -/
structure FactoryCtx where
  uuid : Nat → Str
  time : Nat → Str

/-- `EventFactory` state: the run id, the `_sequence` counter, and the
number of uuid/timestamp draws this factory has made. -/
structure EventFactory where
  runId : Str
  sequence : Nat
  draws : Nat

/-- `EventFactory.__init__(run_id)`: sequence starts at 0. -/
def EventFactory.init (runId : Str) : EventFactory :=
  { runId := runId, sequence := 0, draws := 0 }

/-- `EventFactory.last_sequence` property. -/
def EventFactory.lastSequence (f : EventFactory) : Nat := f.sequence

/-- `EventFactory.wrap`: increment `_sequence`, then build the envelope
with a fresh uuid and the current timestamp. -/
def EventFactory.wrap (ctx : FactoryCtx) (f : EventFactory) (e : AgentEvent) :
    AdapterEvent × EventFactory :=
  ({ sourceEventId := ctx.uuid f.draws,
     sourceSequence := f.sequence + 1,
     sourceOccurredAt := ctx.time f.draws,
     runId := f.runId,
     event := e },
   { f with sequence := f.sequence + 1, draws := f.draws + 1 })

/-- A sequence of `wrap` calls on one factory instance, in call order. -/
def EventFactory.wrapAll (ctx : FactoryCtx) (f : EventFactory) :
    List AgentEvent → List AdapterEvent × EventFactory
  | [] => ([], f)
  | e :: es =>
    let p := f.wrap ctx e
    let rest := p.2.wrapAll ctx es
    (p.1 :: rest.1, rest.2)

/-! ## Prompt renderer (brief_to_prompt.py) -/

/-- `ProjectBrief` (models.py): the fields the prompt renderer reads. -/
structure ProjectBrief where
  title : Str
  description : Str
  goals : List Str := []
  constraints : Option (List Str) := none

/-- `KnowledgeSnapshot` (models.py): the renderer reads only the three
summary lists (for emptiness and length) and the token estimate, so each
summary is carried as its id. -/
structure KnowledgeSnapshot where
  workstreams : List Str := []
  pendingDecisions : List Str := []
  artifactIndex : List Str := []
  estimatedTokens : Int := 0

/-- `AgentBrief` (models.py): the fields this code base reads. -/
structure AgentBrief where
  agentId : Str
  role : Str
  description : Str
  workstream : Str
  constraints : List Str := []
  projectBrief : ProjectBrief
  knowledgeSnapshot : KnowledgeSnapshot

/-- The `sections` list that `brief_to_prompt` builds before joining.
The source guards the knowledge-snapshot section with
`ks and ks.estimated_tokens > 0`; `ks` is a required pydantic field and
never `None`, so only the token test remains. -/
def briefSections (brief : AgentBrief) (continuation : Bool) : List Str :=
  let pb := brief.projectBrief
  let s0 : List Str :=
    if continuation then
      [str "Your previous assignment is complete. Here is your next assignment:\n"]
    else []
  let s1 := [str "You are a " ++ brief.role ++ str " working on the \""
    ++ brief.workstream ++ str "\" workstream."]
  let s2 := [brief.description]
  let s3 := [str "\n## Project\n" ++ pb.title ++ str ": " ++ pb.description]
  let s4 : List Str :=
    if pb.goals ≠ [] then
      [str "\n## Goals\n"
        ++ List.intercalate (str "\n") (pb.goals.map (fun g => str "- " ++ g))]
    else []
  let constraints :=
    match pb.constraints with
    | some cs => if cs ≠ [] then brief.constraints ++ cs else brief.constraints
    | none => brief.constraints
  let s5 : List Str :=
    if constraints ≠ [] then
      [str "\n## Constraints\n"
        ++ List.intercalate (str "\n") (constraints.map (fun c => str "- " ++ c))]
    else []
  let ks := brief.knowledgeSnapshot
  let s6 : List Str :=
    if 0 < ks.estimatedTokens then
      let parts : List Str :=
        (if ks.workstreams ≠ [] then
          [(toString ks.workstreams.length).data ++ str " active workstream(s)"]
         else [])
        ++ (if ks.pendingDecisions ≠ [] then
          [(toString ks.pendingDecisions.length).data ++ str " pending decision(s)"]
         else [])
        ++ (if ks.artifactIndex ≠ [] then
          [(toString ks.artifactIndex.length).data ++ str " artifact(s)"]
         else [])
      if parts ≠ [] then
        [str "\n## Context\n" ++ List.intercalate (str ", ") parts ++ str "."]
      else []
    else []
  s0 ++ s1 ++ s2 ++ s3 ++ s4 ++ s5 ++ s6

/-- The joined, uncapped rendering: `result = "\n".join(sections)`. -/
def renderedBrief (brief : AgentBrief) (continuation : Bool) : Str :=
  List.intercalate (str "\n") (briefSections brief continuation)

/-- `brief_to_prompt` (brief_to_prompt.py): the rendering, hard-capped at
8000 characters. -/
def brief_to_prompt (brief : AgentBrief) (continuation : Bool) : Str :=
  let result := renderedBrief brief continuation
  if 8000 < result.length then result.take 7997 ++ str "..." else result

/-! ## Runner models (mock_runner.py, codex_runner.py)

Each runner's background task runs under asyncio's single-threaded
cooperative scheduling: it executes atomically between suspension points
(`await`).  A run is therefore modelled as a state machine whose `step`
executes the background task from one suspension point to the next, while
the control operations (`drain_events`, `resolve_decision`, `kill`) run
between steps.  `emitted` is the trace of every envelope ever produced
(`buffer` is the not-yet-drained suffix of it).  Script-side uuid and
clock draws come from their own ambient streams, like the mapper's. -/

/-- `KillResponse` (models.py): `state` is always `None` and
`artifacts_extracted` always 0 in this code base. -/
structure KillResponse where
  artifactsExtracted : Nat := 0
  cleanShutdown : Bool
  deriving DecidableEq

/-- Ambient nondeterminism of a run: the factory's streams, the mapper's
streams, and the runner-script/loop's own uuid and timestamp draws. -/
structure RunnerCtx where
  factoryUuid : Nat → Str
  factoryTime : Nat → Str
  mapper : MapperCtx
  scriptUuid : Nat → Str
  scriptTime : Nat → Str

/-- The factory's view of the streams. -/
def RunnerCtx.factory (ctx : RunnerCtx) : FactoryCtx :=
  { uuid := ctx.factoryUuid, time := ctx.factoryTime }

/-- Whether a payload is a lifecycle "killed" event. -/
def AgentEvent.isKilled : AgentEvent → Bool
  | .lifecycle l => l.action = str "killed"
  | _ => false

/-- Whether a payload is a lifecycle event of any action. -/
def AgentEvent.isLifecycle : AgentEvent → Bool
  | .lifecycle _ => true
  | _ => false

/-- A control operation interleaved with the background task's steps.
`kill` is kept separate so a run with exactly one kill call can be stated
directly. -/
inductive RunnerOp where
  | step
  | drain
  | resolve (decisionId : Str)

/-- `MockRunner` state.  `pc` is the script position: the index of the
next suspension-point-delimited segment of `_run_script`.
`futureLive`/`futureResolved` model the decision future (it exists and is
not done / it was fulfilled); `curToolCallId` and `curArtifactId` hold the
script's local variables that span suspension points. -/
structure MockRunner where
  agentId : Str
  workstream : Str
  sessionId : Str
  factory : EventFactory
  buffer : List AdapterEvent
  emitted : List AdapterEvent
  status : Str
  pendingDecisionId : Option Str
  futureLive : Bool
  futureResolved : Bool
  killed : Bool
  completed : Bool
  taskAlive : Bool
  pc : Nat
  curToolCallId : Str
  curArtifactId : Str
  scriptUuidDraws : Nat
  scriptTimeDraws : Nat

/-- `MockRunner.__init__` followed by `start()` (the script task exists
and sits before its first segment). -/
def MockRunner.init (agentId workstream sessionId runId : Str) : MockRunner :=
  { agentId := agentId, workstream := workstream, sessionId := sessionId,
    factory := EventFactory.init runId, buffer := [], emitted := [],
    status := str "running", pendingDecisionId := none, futureLive := false,
    futureResolved := false, killed := false, completed := false,
    taskAlive := true, pc := 0, curToolCallId := [], curArtifactId := [],
    scriptUuidDraws := 0, scriptTimeDraws := 0 }

/-- `_emit`: wrap through the factory and append to the buffer (and to the
ghost trace). -/
def MockRunner.emit (st : MockRunner) (ctx : RunnerCtx) (e : AgentEvent) : MockRunner :=
  let p := st.factory.wrap ctx.factory e
  { st with
    factory := p.2, buffer := st.buffer ++ [p.1],
    emitted := st.emitted ++ [p.1] }

/-- `is_running` property. -/
def MockRunner.is_running (st : MockRunner) : Bool := !st.killed && !st.completed

/-- One `str(uuid.uuid4())` draw made by the script. -/
def MockRunner.freshScriptUuid (st : MockRunner) (ctx : RunnerCtx) : Str × MockRunner :=
  (ctx.scriptUuid st.scriptUuidDraws,
   { st with scriptUuidDraws := st.scriptUuidDraws + 1 })

/-- One timestamp draw made by the script. -/
def MockRunner.freshScriptTime (st : MockRunner) (ctx : RunnerCtx) : Str × MockRunner :=
  (ctx.scriptTime st.scriptTimeDraws,
   { st with scriptTimeDraws := st.scriptTimeDraws + 1 })

/-- The script task returns (a `return` or falling off the end). -/
def MockRunner.endTask (st : MockRunner) : MockRunner := { st with taskAlive := false }

/-- One segment of `_run_script`, from one suspension point to the next.
A cancelled or returned task never runs again. -/
def MockRunner.scriptStep (st : MockRunner) (ctx : RunnerCtx) : MockRunner :=
  if !st.taskAlive then st
  else match st.pc with
  | 0 =>
    let st := st.emit ctx (.lifecycle { agentId := st.agentId, action := str "started" })
    { st with pc := 1 }
  | 1 =>
    if st.killed then st.endTask
    else
      let st := st.emit ctx (.status { agentId := st.agentId, message := str "Starting task..." })
      { st with pc := 2 }
  | 2 =>
    if st.killed then st.endTask
    else
      let p := st.freshScriptUuid ctx
      let st := { p.2 with curToolCallId := p.1 }
      let ev : AgentEvent := .toolCall
        { agentId := st.agentId, toolCallId := st.curToolCallId,
          toolName := str "file_search", phase := str "requested",
          input := some (.obj [(str "query", .str (str "project requirements"))]),
          approved := true }
      { st.emit ctx ev with pc := 3 }
  | 3 =>
    let ev : AgentEvent := .toolCall
      { agentId := st.agentId, toolCallId := st.curToolCallId,
        toolName := str "file_search", phase := str "running",
        input := some (.obj [(str "query", .str (str "project requirements"))]),
        approved := true }
    { st.emit ctx ev with pc := 4 }
  | 4 =>
    let ev : AgentEvent := .toolCall
      { agentId := st.agentId, toolCallId := st.curToolCallId,
        toolName := str "file_search", phase := str "completed",
        input := some (.obj [(str "query", .str (str "project requirements"))]),
        output := some (.obj [(str "results", .arr [.str (str "requirements.md")])]),
        approved := true, durationMs := some 150 }
    { st.emit ctx ev with pc := 5 }
  | 5 =>
    if st.killed then st.endTask
    else
      let p := st.freshScriptUuid ctx
      let st := { p.2 with
        pendingDecisionId := some p.1, status := str "waiting_on_human" }
      let ev : AgentEvent := .toolApproval
        { agentId := st.agentId, decisionId := p.1, toolName := str "execute_code",
          toolArgs := .obj [(str "code", .str (str "print('hello world')")),
            (str "language", .str (str "python"))],
          severity := str "medium", confidence := 0.85, blastRadius := str "small" }
      let st := st.emit ctx ev
      { st with futureLive := true, futureResolved := false, pc := 6 }
  | 6 =>
    if st.futureLive && st.futureResolved then
      let st := { st with
        pendingDecisionId := none, futureLive := false, futureResolved := false }
      if st.killed then st.endTask
      else
        let st := { st with status := str "running" }
        let q := st.freshScriptTime ctx
        let p := q.2.freshScriptUuid ctx
        let st := { p.2 with curArtifactId := p.1 }
        let ev : AgentEvent := .artifact
          { agentId := st.agentId, artifactId := st.curArtifactId,
            name := str "report.md", kind := str "document",
            workstream := st.workstream, status := str "draft",
            qualityScore := 0.9,
            provenance := { createdBy := st.agentId, createdAt := q.1 },
            uri := some (str "/workspace/output/report.md"),
            mimeType := some (str "text/markdown"), sizeBytes := some 1024 }
        { st.emit ctx ev with pc := 7 }
    else st
  | 7 =>
    if st.killed then st.endTask
    else
      let ev : AgentEvent := .completion
        { agentId := st.agentId,
          summary := str "Mock task completed successfully. Generated report.md.",
          artifactsProduced := [st.curArtifactId], decisionsNeeded := [],
          outcome := str "success" }
      let st := st.emit ctx ev
      { st with status := str "completed", completed := true, taskAlive := false, pc := 8 }
  | _ => st.endTask

/-- `MockRunner.drain_events`. -/
def MockRunner.drain_events (st : MockRunner) : List AdapterEvent × MockRunner :=
  (st.buffer, { st with buffer := [] })

/-- `MockRunner.resolve_decision`: fulfil the pending decision future when
the id matches and the future is not yet done. -/
def MockRunner.resolve_decision (st : MockRunner) (decisionId : Str) :
    Bool × MockRunner :=
  if st.futureLive && !st.futureResolved && st.pendingDecisionId = some decisionId then
    (true, { st with futureResolved := true })
  else (false, st)

/-- `MockRunner.kill`: cancel the decision future and the script task,
emit the lifecycle "killed" event, finalize the handle. -/
def MockRunner.kill (st : MockRunner) (ctx : RunnerCtx) (grace : Bool) :
    MockRunner × KillResponse :=
  let st := { st with killed := true, futureLive := false, taskAlive := false }
  let reason := str "kill requested"
    ++ (if grace then str " (graceful)" else str " (force)")
  let killedEvent : AgentEvent := .lifecycle
    { agentId := st.agentId, action := str "killed", reason := some reason }
  let st := st.emit ctx killedEvent
  let st := { st with status := str "completed" }
  (st, { cleanShutdown := grace })

/-- Apply one control operation or task step. -/
def MockRunner.applyOp (st : MockRunner) (ctx : RunnerCtx) : RunnerOp → MockRunner
  | .step => st.scriptStep ctx
  | .drain => st.drain_events.2
  | .resolve d => (st.resolve_decision d).2

/-- Apply a sequence of operations in order. -/
def MockRunner.applyOps (st : MockRunner) (ctx : RunnerCtx) : List RunnerOp → MockRunner
  | [] => st
  | op :: ops => (st.applyOp ctx op).applyOps ctx ops

/-- The phase of `CodexRunner._spawn_and_read`'s background task.  The
NDJSON stream is carried as the parse result of each stdout line (`none`
for a line `json.loads` rejects).  `failedTask` is a task that died on an
uncaught exception (a mapper raise or a handle-validation error). -/
inductive CodexTask where
  | toSpawn (lines : List (Option JValue))
  | reading (remaining : List (Option JValue))
  | exiting
  | finished
  | failedTask

/-- `CodexRunner` state.  `launchOk` is whether the `codex` executable can
be spawned; `exitCode` and `stderrText` are the backing process's exit
status and captured standard error. -/
structure CodexRunner where
  agentId : Str
  workstream : Str
  sessionId : JValue
  factory : EventFactory
  mapper : CodexEventMapper
  buffer : List AdapterEvent
  emitted : List AdapterEvent
  status : Str
  killed : Bool
  completed : Bool
  task : CodexTask
  launchOk : Bool
  exitCode : Int
  stderrText : Str

/-- `CodexRunner.__init__` followed by `start()`. -/
def CodexRunner.init (agentId workstream sessionId runId : Str)
    (launchOk : Bool) (lines : List (Option JValue)) (exitCode : Int)
    (stderrText : Str) : CodexRunner :=
  { agentId := agentId, workstream := workstream, sessionId := .str sessionId,
    factory := EventFactory.init runId,
    mapper := CodexEventMapper.init agentId workstream,
    buffer := [], emitted := [], status := str "running",
    killed := false, completed := false, task := .toSpawn lines,
    launchOk := launchOk, exitCode := exitCode, stderrText := stderrText }

/-- `_emit` for the process-backed runner. -/
def CodexRunner.emit (st : CodexRunner) (ctx : RunnerCtx) (e : AgentEvent) : CodexRunner :=
  let p := st.factory.wrap ctx.factory e
  { st with
    factory := p.2, buffer := st.buffer ++ [p.1],
    emitted := st.emitted ++ [p.1] }

/-- `is_running` property. -/
def CodexRunner.is_running (st : CodexRunner) : Bool := !st.killed && !st.completed

/-- One segment of `_spawn_and_read` / `_handle_exit`, from one suspension
point to the next.  On an uncaught exception the task dies; the partial
mutation of the mapper's correlation state by a raising `map_event` call
is not modelled, as a dead task never invokes the mapper again. -/
def CodexRunner.taskStep (st : CodexRunner) (ctx : RunnerCtx) : CodexRunner :=
  match st.task with
  | .toSpawn lines =>
    if !st.launchOk then
      let st := st.emit ctx (.error
        { agentId := st.agentId, severity := str "critical",
          message := str "codex CLI not found. Install with: npm install -g @openai/codex",
          recoverable := false, category := str "internal" })
      let st := st.emit ctx (.completion
        { agentId := st.agentId,
          summary := str "Failed to start: codex CLI not found",
          outcome := str "abandoned" })
      { st with completed := true, status := str "error", task := .finished }
    else
      let st := st.emit ctx (.lifecycle { agentId := st.agentId, action := str "started" })
      { st with task := .reading lines }
  | .reading [] => { st with task := .exiting }
  | .reading (none :: rest) => { st with task := .reading rest }
  | .reading (some data :: rest) =>
    match st.mapper.mapEvent ctx.mapper data with
    | .error _ => { st with task := .failedTask }
    | .ok (evs, mapper') =>
      let st := evs.foldl (fun s e => s.emit ctx e) st
      let st := { st with mapper := mapper', task := .reading rest }
      if mapper'.sessionId.truthy && !(JValue.beq st.sessionId mapper'.sessionId) then
        match mapper'.sessionId with
        | .str s => { st with sessionId := .str s, status := str "running" }
        | _ => { st with task := .failedTask }
      else st
  | .exiting =>
    if st.exitCode = 0 then
      let st := st.emit ctx (.completion
        { agentId := st.agentId,
          summary := str "Codex session completed successfully",
          outcome := str "success" })
      { st with status := str "completed", completed := true, task := .finished }
    else
      let stderrT := st.stderrText.take 500
      let msg := str "Codex exited with code " ++ (toString st.exitCode).data
        ++ (if stderrT ≠ [] then str ": " ++ stderrT else [])
      let st := st.emit ctx (.error
        { agentId := st.agentId, severity := str "high", message := msg,
          recoverable := false, category := str "internal" })
      let st := st.emit ctx (.lifecycle
        { agentId := st.agentId, action := str "crashed",
          reason := some (str "Exit code " ++ (toString st.exitCode).data) })
      { st with status := str "error", completed := true, task := .finished }
  | .finished => st
  | .failedTask => st

/-- Cancelling the read task (a task already done is left as it is). -/
def CodexTask.cancel : CodexTask → CodexTask
  | .finished => .finished
  | .failedTask => .failedTask
  | _ => .finished

/-- `CodexRunner.kill`: terminate the process, cancel the read task, emit
the lifecycle "killed" event, finalize the handle.  On a graceful kill the
5-second wait for the process may time out and escalate to a forceful
kill; `escalate` is that environment outcome (it can only be true while
the process is still alive). -/
def CodexRunner.kill (st : CodexRunner) (ctx : RunnerCtx) (grace escalate : Bool) :
    CodexRunner × KillResponse :=
  let st := { st with killed := true }
  let forced := if grace then escalate else true
  let st := { st with task := st.task.cancel }
  let reason := str "kill requested"
    ++ (if !forced then str " (graceful)" else str " (force)")
  let killedEvent : AgentEvent := .lifecycle
    { agentId := st.agentId, action := str "killed", reason := some reason }
  let st := st.emit ctx killedEvent
  let st := { st with status := str "completed", completed := true }
  (st, { cleanShutdown := !forced })

/-- `CodexRunner.drain_events`. -/
def CodexRunner.drain_events (st : CodexRunner) : List AdapterEvent × CodexRunner :=
  (st.buffer, { st with buffer := [] })

/-- Apply one control operation or task step (`resolve_decision` is a
no-op returning `False` for the process-backed runner). -/
def CodexRunner.applyOp (st : CodexRunner) (ctx : RunnerCtx) : RunnerOp → CodexRunner
  | .step => st.taskStep ctx
  | .drain => st.drain_events.2
  | .resolve _ => st

/-- Apply a sequence of operations in order. -/
def CodexRunner.applyOps (st : CodexRunner) (ctx : RunnerCtx) : List RunnerOp → CodexRunner
  | [] => st
  | op :: ops => (st.applyOp ctx op).applyOps ctx ops

/-- The lifecycle "killed" payload that `kill` emits: the reason notes
graceful versus forced termination. -/
def killedEvent (agentId : Str) (graceful : Bool) : AgentEvent :=
  .lifecycle
    { agentId := agentId,
      action := str "killed",
      reason := some (str "kill requested"
        ++ (if graceful then str " (graceful)" else str " (force)")) }

/-! ## Application event buffer (app.py) -/

/-- `MAX_EVENT_BUFFER` (app.py). -/
def MAX_EVENT_BUFFER : Nat := 1000

/-- `_drain_to_buffer` (app.py): extend the shared buffer with the
runner's drained events, then keep only the last `MAX_EVENT_BUFFER`
entries (`state.event_buffer[-MAX_EVENT_BUFFER:]`). -/
def drain_to_buffer (eventBuffer drained : List AdapterEvent) : List AdapterEvent :=
  let b := eventBuffer ++ drained
  if MAX_EVENT_BUFFER < b.length then b.drop (b.length - MAX_EVENT_BUFFER) else b

/-! ## Concrete inputs used by counterexamples and witnesses -/

/-- Concrete uuid stream for the C1 witness. -/
def uuidW : Nat → Str := fun n => List.replicate n 'u'

/-- Concrete factory context for the C1 witness. -/
def ctxW : FactoryCtx := { uuid := uuidW, time := fun _ => [] }

/-- A minimal payload for witnesses. -/
def evW : AgentEvent := .status { agentId := [], message := [] }

/-- A minimal envelope for witnesses. -/
def envW : AdapterEvent :=
  { sourceEventId := [], sourceSequence := 1, sourceOccurredAt := [],
    runId := [], event := evW }

/-- A deterministic mapper context for concrete evaluations. -/
def mctx0 : MapperCtx :=
  { uuid := fun n => 'm' :: (toString n).data, time := fun n => (n : Int),
    timeStr := fun n => 't' :: (toString n).data }

/-- A fresh mapper instance for concrete evaluations. -/
def mapper0 : CodexEventMapper := CodexEventMapper.init (str "a1") (str "ws")

/-- An `item.completed` notification for an `agent_message` item carrying
`text`, in the real (nested `item`) Codex format. -/
def agentMessageCompleted (itemId : Str) (text : JValue) : JValue :=
  .obj [(str "type", .str (str "item.completed")),
        (str "item", .obj [(str "id", .str itemId),
          (str "type", .str (str "agent_message")),
          (str "text", text)])]

/-- An `item.completed` notification for a `file_change` item with a
path, in the real (nested `item`) Codex format. -/
def fileChangeCompleted (itemId p : Str) : JValue :=
  .obj [(str "type", .str (str "item.completed")),
        (str "item", .obj [(str "id", .str itemId),
          (str "type", .str (str "file_change")),
          (str "path", .str p)])]

/-- The brief used by the C6 witness: a 9000-character description. -/
def briefW : AgentBrief :=
  { agentId := str "a1", role := str "engineer",
    description := List.replicate 9000 'x', workstream := str "ws",
    projectBrief := { title := str "T", description := str "D" },
    knowledgeSnapshot := {} }

/-! ## Theorems -/

/-- Characterization of `wrapAll` from an arbitrary factory state: the
envelopes carry consecutive sequence numbers and consecutively drawn event
ids, and the counters advance by the number of calls. -/
theorem wrapAll_spec (ctx : FactoryCtx) (es : List AgentEvent) :
    ∀ f : EventFactory,
      (f.wrapAll ctx es).1.map AdapterEvent.sourceSequence
        = List.range' (f.sequence + 1) es.length
      ∧ (f.wrapAll ctx es).1.map AdapterEvent.sourceEventId
        = (List.range' f.draws es.length).map ctx.uuid
      ∧ (f.wrapAll ctx es).2.sequence = f.sequence + es.length
      ∧ (f.wrapAll ctx es).2.draws = f.draws + es.length := by
  induction es with
  | nil => intro f; simp [EventFactory.wrapAll]
  | cons e es ih =>
    intro f
    obtain ⟨h1, h2, h3, h4⟩ := ih ((f.wrap ctx e).2)
    refine ⟨?_, ?_, ?_, ?_⟩
    · simpa [EventFactory.wrapAll, EventFactory.wrap, List.range'_succ] using h1
    · simpa [EventFactory.wrapAll, EventFactory.wrap, List.range'_succ] using h2
    · simpa [EventFactory.wrapAll, EventFactory.wrap, Nat.add_assoc, Nat.add_comm 1] using h3
    · simpa [EventFactory.wrapAll, EventFactory.wrap, Nat.add_assoc, Nat.add_comm 1] using h4

/-- C1: on one `EventFactory` instance, any sequence of `wrap` calls
returns envelopes whose sequence numbers are exactly 1, 2, 3, … in call
order, all returned event identifiers are distinct (under uuid4's
uniqueness, modelled as injectivity of the uuid stream), and
`last_sequence` is 0 before any `wrap` call and equals the number of
`wrap` calls afterwards. -/
theorem eventFactory_wrap_sequencing (runId : Str) (ctx : FactoryCtx)
    (hinj : Function.Injective ctx.uuid) (es : List AgentEvent) :
    (EventFactory.init runId).lastSequence = 0
    ∧ ((EventFactory.init runId).wrapAll ctx es).1.map AdapterEvent.sourceSequence
      = List.range' 1 es.length
    ∧ (((EventFactory.init runId).wrapAll ctx es).1.map AdapterEvent.sourceEventId).Nodup
    ∧ ((EventFactory.init runId).wrapAll ctx es).2.lastSequence = es.length := by
  obtain ⟨h1, h2, h3, _⟩ := wrapAll_spec ctx es (EventFactory.init runId)
  refine ⟨rfl, by simpa [EventFactory.init] using h1, ?_, ?_⟩
  · rw [h2]
    exact (List.nodup_range' ..).map hinj
  · simpa [EventFactory.lastSequence, EventFactory.init] using h3

/-- `uuidW` is injective (replicate length recovers the index). -/
theorem uuidW_injective : Function.Injective uuidW := by
  intro a b h
  simpa [uuidW] using congrArg List.length h

/-- Witness for C1 at three concrete `wrap` calls. -/
theorem eventFactory_wrap_sequencing_witness :
    Function.Injective ctxW.uuid
    ∧ ((EventFactory.init []).lastSequence = 0
      ∧ ((EventFactory.init []).wrapAll ctxW [evW, evW, evW]).1.map AdapterEvent.sourceSequence
        = List.range' 1 3
      ∧ (((EventFactory.init []).wrapAll ctxW [evW, evW, evW]).1.map AdapterEvent.sourceEventId).Nodup
      ∧ ((EventFactory.init []).wrapAll ctxW [evW, evW, evW]).2.lastSequence = 3) :=
  ⟨uuidW_injective,
   eventFactory_wrap_sequencing [] ctxW uuidW_injective [evW, evW, evW]⟩

/-- `truncateText` on a string: keep it when at most 500 characters, else
cut to 497 characters and append the three-dot marker. -/
theorem truncateText_str (s : Str) :
    truncateText (.str s) =
      .ok (.str (if 500 < s.length then s.take 497 ++ str "..." else s)) := by
  have key : truncateText (.str s) =
      (if 500 < s.length then
        (pySliceTake (.str s) 497 >>= fun sliced => pyAddStr sliced (str "..."))
      else pure (.str s)) := rfl
  rw [key]
  by_cases h : 500 < s.length
  · rw [if_pos h, if_pos h]; rfl
  · rw [if_neg h, if_neg h]; rfl

/-- `str(t)` over a list of JSON strings recovers the strings. -/
theorem map_pyStr_map_str (ss : List Str) : (ss.map JValue.str).map pyStr = ss := by
  rw [List.map_map]
  have h : pyStr ∘ JValue.str = id := funext fun s => rfl
  rw [h, List.map_id]

set_option maxRecDepth 10000 in
/-- C2 (counterexample to the claim as stated): a 501-character
`agent_message` text is mapped to a 500-character status message that is
the first 497 characters followed by a three-character ellipsis marker —
not the claimed straight 500-character truncation with no marker. -/
theorem agent_message_truncation_counterexample :
    mapper0.mapEvent mctx0
        (agentMessageCompleted (str "m1") (.str (List.replicate 501 'a'))) =
      .ok ([.status { agentId := str "a1",
                      message := List.replicate 497 'a' ++ str "..." }],
           mapper0)
    ∧ List.replicate 497 'a' ++ str "..." ≠ (List.replicate 501 'a').take 500 := by
  constructor
  · rfl
  · decide

/-- C2 (amended): for every `item.completed` event with item type
`agent_message`, the mapper extracts the text (a string, or a list of
strings joined with spaces), truncates any text longer than 500 characters
to its first 497 characters plus a three-character ellipsis marker
(yielding exactly 500 characters), and emits exactly one status event
carrying that text, leaving the mapper state unchanged. -/
theorem agent_message_truncation_ellipsis (ctx : MapperCtx) (st : CodexEventMapper)
    (iid : Str) :
    (∀ s : Str,
      st.mapEvent ctx (agentMessageCompleted iid (.str s)) =
        .ok ([.status { agentId := st.agentId,
                        message := if 500 < s.length then s.take 497 ++ str "..." else s }],
             st))
    ∧ (∀ ss : List Str,
      st.mapEvent ctx (agentMessageCompleted iid (.arr (ss.map JValue.str))) =
        .ok ([.status { agentId := st.agentId,
                        message := if 500 < (List.intercalate (str " ") ss).length
                                   then (List.intercalate (str " ") ss).take 497 ++ str "..."
                                   else List.intercalate (str " ") ss }],
             st)) := by
  constructor
  · intro s
    have key : st.mapEvent ctx (agentMessageCompleted iid (.str s)) =
        (truncateText (.str s) >>= fun text2 => text2.asStr >>= fun msg =>
          pure ([.status { agentId := st.agentId, message := msg }], st)) := rfl
    rw [key, truncateText_str]
    rfl
  · intro ss
    have key : st.mapEvent ctx (agentMessageCompleted iid (.arr (ss.map JValue.str))) =
        (truncateText (.str (List.intercalate (str " ") ((ss.map JValue.str).map pyStr)))
          >>= fun text2 => text2.asStr >>= fun msg =>
          pure ([.status { agentId := st.agentId, message := msg }], st)) := rfl
    rw [key, map_pyStr_map_str, truncateText_str]
    rfl

/-- C3 (code bug): `map_event` on the well-formed object
`{"type": "turn.failed", "error": "boom"}` raises `AttributeError`
(`"boom".get(...)`), for every mapper state, contradicting the spec's
promise that the mapper never raises on well-formed input. -/
theorem mapEvent_turn_failed_nondict_raises (ctx : MapperCtx) (st : CodexEventMapper) :
    st.mapEvent ctx (.obj [(str "type", .str (str "turn.failed")),
      (str "error", .str (str "boom"))]) = .error .attributeError := rfl

/-- C6: the rendered prompt is always at most 8000 characters, and
whenever the untruncated rendering exceeds 8000 characters the result is
exactly 8000 characters: the first 7997 characters followed by the
three-character ellipsis marker. -/
theorem brief_to_prompt_hard_cap (brief : AgentBrief) (continuation : Bool) :
    (brief_to_prompt brief continuation).length ≤ 8000
    ∧ (8000 < (renderedBrief brief continuation).length →
        brief_to_prompt brief continuation
          = (renderedBrief brief continuation).take 7997 ++ str "..."
        ∧ (brief_to_prompt brief continuation).length = 8000) := by
  by_cases h : 8000 < (renderedBrief brief continuation).length
  · have hb : brief_to_prompt brief continuation
        = (renderedBrief brief continuation).take 7997 ++ str "..." := by
      simp only [brief_to_prompt, if_pos h]
    have hlen : (brief_to_prompt brief continuation).length = 8000 := by
      rw [hb]
      simp only [List.length_append, List.length_take, str]
      have : (renderedBrief brief continuation).length ≥ 7997 := by omega
      simp [Nat.min_eq_left this]
    exact ⟨by omega, fun _ => ⟨hb, hlen⟩⟩
  · have hb : brief_to_prompt brief continuation = renderedBrief brief continuation := by
      simp only [brief_to_prompt, if_neg h]
    exact ⟨by rw [hb]; omega, fun hc => absurd hc h⟩

/-- The C6 witness brief renders to more than 8000 characters (its
9000-character description is an infix of the rendering). -/
theorem renderedBriefW_long : 8000 < (renderedBrief briefW false).length := by
  have hsec : briefSections briefW false
      = [str "You are a " ++ str "engineer" ++ str " working on the \""
          ++ str "ws" ++ str "\" workstream.",
         List.replicate 9000 'x',
         str "\n## Project\n" ++ str "T" ++ str ": " ++ str "D"] := rfl
  have hr : renderedBrief briefW false
      = (str "You are a " ++ str "engineer" ++ str " working on the \""
          ++ str "ws" ++ str "\" workstream.")
        ++ (str "\n" ++ (List.replicate 9000 'x'
        ++ (str "\n" ++ ((str "\n## Project\n" ++ str "T" ++ str ": " ++ str "D") ++ [])))) := by
    rw [renderedBrief, hsec]
    rfl
  have hinf : List.replicate 9000 'x' <:+: renderedBrief briefW false := by
    rw [hr]
    refine ⟨(str "You are a " ++ str "engineer" ++ str " working on the \""
          ++ str "ws" ++ str "\" workstream.") ++ str "\n",
        str "\n" ++ ((str "\n## Project\n" ++ str "T" ++ str ": " ++ str "D") ++ []), ?_⟩
    simp only [List.append_assoc]
  have hle := hinf.length_le
  rw [List.length_replicate] at hle
  omega

/-- Witness for C6: the brief with a 9000-character description renders
to exactly 8000 characters ending in the ellipsis marker. -/
theorem brief_to_prompt_hard_cap_witness :
    8000 < (renderedBrief briefW false).length
    ∧ (brief_to_prompt briefW false
        = (renderedBrief briefW false).take 7997 ++ str "..."
      ∧ (brief_to_prompt briefW false).length = 8000) :=
  ⟨renderedBriefW_long, (brief_to_prompt_hard_cap briefW false).2 renderedBriefW_long⟩

/-- Popping an absent key leaves the correlation map unchanged. -/
theorem keyRemove_of_lookup_none {kvs : List (JValue × ToolCallRec)} {k : JValue}
    (h : keyLookup kvs k = none) : keyRemove kvs k = kvs := by
  induction kvs with
  | nil => rfl
  | cons kv rest ih =>
    obtain ⟨k', v⟩ := kv
    by_cases hb : JValue.beq k' k = true
    · simp [keyLookup, hb] at h
    · simp only [keyLookup, hb, if_false, Bool.false_eq_true, if_neg] at h
      simp [keyRemove, hb, ih h]

/-- C7: a `file_change` `item.completed` event whose item id has no open
correlation entry synthesizes a fresh tool-call identifier (the next
undrawn uuid), emits the tool-call completion with `durationMs` absent,
and (for a non-empty path) one artifact event; for the path
`"src/test_utils.spec.ts"` the inferred artifact kind is `"test"`. -/
theorem file_change_unmatched_completion (ctx : MapperCtx) (st : CodexEventMapper)
    (iid p : Str) (h : keyLookup st.openToolCalls (.str iid) = none) :
    st.mapEvent ctx (fileChangeCompleted iid p) =
      .ok (.toolCall { agentId := st.agentId, toolCallId := ctx.uuid st.uuidDraws,
                       toolName := str "Edit", phase := str "completed",
                       input := some (.obj [(str "file_path", .str p)]),
                       output := some (.obj [(str "success", .bool true)]),
                       approved := true, durationMs := none }
            :: (if p.isEmpty then [] else
              [.artifact { agentId := st.agentId,
                           artifactId := ctx.uuid (st.uuidDraws + 1),
                           name := basename p, kind := infer_artifact_kind p,
                           workstream := st.workstream, status := str "draft",
                           qualityScore := 0.5,
                           provenance := { createdBy := st.agentId,
                                           createdAt := ctx.timeStr st.timeDraws },
                           uri := some p }]),
            if p.isEmpty then { st with uuidDraws := st.uuidDraws + 1 }
            else { st with uuidDraws := st.uuidDraws + 2,
                           timeDraws := st.timeDraws + 1 })
    ∧ (p = str "src/test_utils.spec.ts" → infer_artifact_kind p = str "test") := by
  constructor
  · have key : st.mapEvent ctx (fileChangeCompleted iid p) =
        CodexEventMapper.fileChangeCompletedTail
          { st with openToolCalls := keyRemove st.openToolCalls (.str iid) } ctx
          (.str p) (keyLookup st.openToolCalls (.str iid)) := rfl
    rw [key, h, keyRemove_of_lookup_none h]
    cases p with
    | nil => rfl
    | cons c p' => rfl
  · intro hp
    rw [hp]
    decide

/-- Witness for C7: a fresh mapper (no open correlation entries), item id
"i1", path "src/test_utils.spec.ts". -/
theorem file_change_unmatched_completion_witness :
    keyLookup mapper0.openToolCalls (.str (str "i1")) = none
    ∧ infer_artifact_kind (str "src/test_utils.spec.ts") = str "test" :=
  ⟨rfl,
   (file_change_unmatched_completion mctx0 mapper0 (str "i1")
      (str "src/test_utils.spec.ts") rfl).2 rfl⟩

/-- C8: `infer_artifact_kind` follows the specified table: test names
(base filename containing ".test." or ".spec." or starting with "test_",
checked first), then the code / document / config extension groups
(extensions compared after lowercasing, as `ext.lower()` does), else
"other". -/
theorem infer_artifact_kind_table (fp : Str) :
    ((str ".test.") <:+: basename fp ∨ (str ".spec.") <:+: basename fp
        ∨ (str "test_") <+: basename fp →
      infer_artifact_kind fp = str "test")
    ∧ (¬((str ".test.") <:+: basename fp ∨ (str ".spec.") <:+: basename fp
        ∨ (str "test_") <+: basename fp) →
      ((splitextExt (basename fp)).map Char.toLower
          ∈ [str ".ts", str ".js", str ".py", str ".rs", str ".go",
             str ".java", str ".tsx", str ".jsx"] →
        infer_artifact_kind fp = str "code")
      ∧ ((splitextExt (basename fp)).map Char.toLower ∈ [str ".md", str ".txt", str ".rst"] →
        infer_artifact_kind fp = str "document")
      ∧ ((splitextExt (basename fp)).map Char.toLower
          ∈ [str ".json", str ".yaml", str ".yml", str ".toml", str ".ini", str ".cfg"] →
        infer_artifact_kind fp = str "config")
      ∧ ((splitextExt (basename fp)).map Char.toLower
          ∉ [str ".ts", str ".js", str ".py", str ".rs", str ".go",
             str ".java", str ".tsx", str ".jsx"] →
        (splitextExt (basename fp)).map Char.toLower ∉ [str ".md", str ".txt", str ".rst"] →
        (splitextExt (basename fp)).map Char.toLower
          ∉ [str ".json", str ".yaml", str ".yml", str ".toml", str ".ini", str ".cfg"] →
        infer_artifact_kind fp = str "other")) := by
  have hbool : (decide ((str ".test.") <:+: basename fp)
        || decide ((str ".spec.") <:+: basename fp)
        || (str "test_").isPrefixOf (basename fp)) = true
      ↔ ((str ".test.") <:+: basename fp ∨ (str ".spec.") <:+: basename fp
        ∨ (str "test_") <+: basename fp) := by
    simp [List.isPrefixOf_iff_prefix, or_assoc]
  unfold infer_artifact_kind
  constructor
  · intro hT
    simp [hbool.mpr hT]
  · intro hT
    have hF : (decide ((str ".test.") <:+: basename fp)
        || decide ((str ".spec.") <:+: basename fp)
        || (str "test_").isPrefixOf (basename fp)) = false := by
      cases hb : (decide ((str ".test.") <:+: basename fp)
          || decide ((str ".spec.") <:+: basename fp)
          || (str "test_").isPrefixOf (basename fp)) with
      | true => exact absurd (hbool.mp hb) hT
      | false => rfl
    refine ⟨fun hc => by simp [hF, hc], fun hd => ?_, fun hk => ?_,
      fun h1 h2 h3 => by simp [hF, h1, h2, h3]⟩
    · simp only [str, List.mem_cons, List.mem_singleton, List.not_mem_nil, or_false] at hd
      rcases hd with he | he | he <;> (simp only [hF]; simp [he, str])
    · simp only [str, List.mem_cons, List.mem_singleton, List.not_mem_nil, or_false] at hk
      rcases hk with he | he | he | he | he | he <;> (simp only [hF]; simp [he, str])

/-- Witness for C8 at the concrete path "src/app.py": not a test name,
extension in the code group, so the kind is "code". -/
theorem infer_artifact_kind_table_witness :
    ¬((str ".test.") <:+: basename (str "src/app.py")
        ∨ (str ".spec.") <:+: basename (str "src/app.py")
        ∨ (str "test_") <+: basename (str "src/app.py"))
    ∧ (splitextExt (basename (str "src/app.py"))).map Char.toLower
        ∈ [str ".ts", str ".js", str ".py", str ".rs", str ".go",
           str ".java", str ".tsx", str ".jsx"]
    ∧ infer_artifact_kind (str "src/app.py") = str "code" :=
  ⟨by decide, by decide,
   ((infer_artifact_kind_table (str "src/app.py")).2 (by decide)).1 (by decide)⟩

/-- C9: `drain_events` removes and returns the whole buffer (which holds
the enveloped events in production order) for both runner variants, and a
second drain with no intervening production returns the empty list. -/
theorem drain_events_take_all :
    (∀ st : MockRunner,
      st.drain_events = (st.buffer, { st with buffer := [] })
      ∧ st.drain_events.2.drain_events.1 = [])
    ∧ (∀ st : CodexRunner,
      st.drain_events = (st.buffer, { st with buffer := [] })
      ∧ st.drain_events.2.drain_events.1 = []) :=
  ⟨fun _ => ⟨rfl, rfl⟩, fun _ => ⟨rfl, rfl⟩⟩

/-- C10: after every transfer into the application's shared event buffer,
the buffer holds at most `MAX_EVENT_BUFFER` (1000) envelopes, and whenever
more accumulate only the most recent 1000 are retained (the oldest are
dropped from the front). -/
theorem event_buffer_cap (eventBuffer drained : List AdapterEvent) :
    (drain_to_buffer eventBuffer drained).length ≤ MAX_EVENT_BUFFER
    ∧ (MAX_EVENT_BUFFER < (eventBuffer ++ drained).length →
        drain_to_buffer eventBuffer drained =
          (eventBuffer ++ drained).drop ((eventBuffer ++ drained).length - MAX_EVENT_BUFFER)) := by
  by_cases h : MAX_EVENT_BUFFER < (eventBuffer ++ drained).length
  · refine ⟨?_, fun _ => ?_⟩
    · simp only [drain_to_buffer, if_pos h, List.length_drop]
      omega
    · simp only [drain_to_buffer, if_pos h]
  · refine ⟨?_, fun hc => absurd hc h⟩
    simp only [drain_to_buffer, if_neg h]
    omega

/-- Witness for C10: 1001 buffered envelopes are cut to the most recent
1000. -/
theorem event_buffer_cap_witness :
    MAX_EVENT_BUFFER < (List.replicate 1001 envW ++ ([] : List AdapterEvent)).length
    ∧ drain_to_buffer (List.replicate 1001 envW) [] =
        (List.replicate 1001 envW ++ ([] : List AdapterEvent)).drop
          ((List.replicate 1001 envW ++ ([] : List AdapterEvent)).length - MAX_EVENT_BUFFER) :=
  ⟨by simp only [List.append_nil, List.length_replicate, MAX_EVENT_BUFFER]; omega,
   (event_buffer_cap (List.replicate 1001 envW) []).2
     (by simp only [List.append_nil, List.length_replicate, MAX_EVENT_BUFFER]; omega)⟩



theorem bind_ok {α β : Type} {m : Except PyErr α} {k : α → Except PyErr β} {r : β}
    (h : (m >>= k) = .ok r) : ∃ a, m = .ok a ∧ k a = .ok r := by
  cases m with
  | error e => exact absurd h (by simp [Bind.bind, Except.bind])
  | ok a => exact ⟨a, rfl, by simpa [Bind.bind, Except.bind] using h⟩

theorem handleCommand_no_killed (st : CodexEventMapper) (ctx : MapperCtx)
    (et : Str) (itemId data : JValue) {evs : List AgentEvent} {st' : CodexEventMapper}
    (h : st.handleCommand ctx et itemId data = .ok (evs, st')) :
    ∀ e ∈ evs, e.isKilled = false := by
  unfold CodexEventMapper.handleCommand at h
  obtain ⟨item, hi, h⟩ := bind_ok h
  split at h
  · obtain ⟨d1, h1, h⟩ := bind_ok h
    obtain ⟨d2, h2, h⟩ := bind_ok h
    obtain ⟨d3, h3, h⟩ := bind_ok h
    obtain ⟨command, h4, h⟩ := bind_ok h
    dsimp only at h
    split at h
    · simp [Bind.bind, Except.bind, throw, throwThe, MonadExceptOf.throw] at h
    · simp only [Bind.bind, Except.bind, pure, Except.pure, Except.ok.injEq,
        Prod.mk.injEq] at h
      obtain ⟨hevs, -⟩ := h
      intro e he
      rw [← hevs] at he
      simp only [List.mem_singleton] at he
      subst he
      rfl
  · split at h
    · dsimp only at h
      split at h
      · simp [Bind.bind, Except.bind, throw, throwThe, MonadExceptOf.throw] at h
      · simp only [Bind.bind, Except.bind, pure, Except.pure] at h
        obtain ⟨e1, he1, h⟩ := bind_ok h
        obtain ⟨e2, he2, h⟩ := bind_ok h
        obtain ⟨exitCode, he3, h⟩ := bind_ok h
        obtain ⟨o1, ho1, h⟩ := bind_ok h
        obtain ⟨o2, ho2, h⟩ := bind_ok h
        obtain ⟨o3, ho3, h⟩ := bind_ok h
        obtain ⟨output, ho4, h⟩ := bind_ok h
        simp only [pure, Except.pure, Except.ok.injEq, Prod.mk.injEq] at h
        obtain ⟨hevs, -⟩ := h
        intro e he
        rw [← hevs] at he
        simp only [List.mem_singleton] at he
        subst he
        rfl
    · simp only [pure, Except.pure, Except.ok.injEq, Prod.mk.injEq] at h
      obtain ⟨hevs, -⟩ := h
      intro e he
      rw [← hevs] at he
      simp at he

theorem fileChangeCompletedTail_no_killed (st : CodexEventMapper) (ctx : MapperCtx)
    (filePath : JValue) (tc : Option ToolCallRec)
    {evs : List AgentEvent} {st' : CodexEventMapper}
    (h : st.fileChangeCompletedTail ctx filePath tc = .ok (evs, st')) :
    ∀ e ∈ evs, e.isKilled = false := by
  unfold CodexEventMapper.fileChangeCompletedTail at h
  dsimp only at h
  split at h
  · split at h
    · simp only [Bind.bind, Except.bind, pure, Except.pure, Except.ok.injEq,
        Prod.mk.injEq] at h
      obtain ⟨hevs, -⟩ := h
      intro e he
      rw [← hevs] at he
      simp only [List.mem_cons, List.mem_singleton, List.not_mem_nil, or_false] at he
      rcases he with he | he <;> (subst he; rfl)
    · exact absurd h (by simp)
  · simp only [pure, Except.pure, Except.ok.injEq, Prod.mk.injEq] at h
    obtain ⟨hevs, -⟩ := h
    intro e he
    rw [← hevs] at he
    simp only [List.mem_singleton] at he
    subst he
    rfl

theorem handleFileChange_no_killed (st : CodexEventMapper) (ctx : MapperCtx)
    (et : Str) (itemId data : JValue) {evs : List AgentEvent} {st' : CodexEventMapper}
    (h : st.handleFileChange ctx et itemId data = .ok (evs, st')) :
    ∀ e ∈ evs, e.isKilled = false := by
  unfold CodexEventMapper.handleFileChange at h
  obtain ⟨item, hi, h⟩ := bind_ok h
  obtain ⟨f1, h1, h⟩ := bind_ok h
  obtain ⟨f2, h2, h⟩ := bind_ok h
  obtain ⟨f3, h3, h⟩ := bind_ok h
  obtain ⟨filePath, h4, h⟩ := bind_ok h
  split at h
  · dsimp only at h
    split at h
    · simp [Bind.bind, Except.bind, throw, throwThe, MonadExceptOf.throw] at h
    · simp only [Bind.bind, Except.bind, pure, Except.pure, Except.ok.injEq,
        Prod.mk.injEq] at h
      obtain ⟨hevs, -⟩ := h
      intro e he
      rw [← hevs] at he
      simp only [List.mem_singleton] at he
      subst he
      rfl
  · split at h
    · dsimp only at h
      split at h
      · simp [Bind.bind, Except.bind, throw, throwThe, MonadExceptOf.throw] at h
      · simp only [Bind.bind, Except.bind, pure, Except.pure] at h
        exact fileChangeCompletedTail_no_killed _ _ _ _ h
    · simp only [pure, Except.pure, Except.ok.injEq, Prod.mk.injEq] at h
      obtain ⟨hevs, -⟩ := h
      intro e he
      rw [← hevs] at he
      simp at he

theorem handleMcp_no_killed (st : CodexEventMapper) (ctx : MapperCtx)
    (et : Str) (itemId data : JValue) {evs : List AgentEvent} {st' : CodexEventMapper}
    (h : st.handleMcp ctx et itemId data = .ok (evs, st')) :
    ∀ e ∈ evs, e.isKilled = false := by
  unfold CodexEventMapper.handleMcp at h
  obtain ⟨item, hi, h⟩ := bind_ok h
  obtain ⟨n1, h1, h⟩ := bind_ok h
  obtain ⟨n2, h2, h⟩ := bind_ok h
  obtain ⟨n3, h3, h⟩ := bind_ok h
  obtain ⟨toolName, h4, h⟩ := bind_ok h
  split at h
  · dsimp only at h
    split at h
    · simp [Bind.bind, Except.bind, throw, throwThe, MonadExceptOf.throw] at h
    · simp only [Bind.bind, Except.bind, pure, Except.pure] at h
      obtain ⟨i1, hi1, h⟩ := bind_ok h
      obtain ⟨i2, hi2, h⟩ := bind_ok h
      obtain ⟨i3, hi3, h⟩ := bind_ok h
      obtain ⟨inputV, hi4, h⟩ := bind_ok h
      obtain ⟨toolNameS, ht, h⟩ := bind_ok h
      split at h
      · simp only [Except.ok.injEq, Prod.mk.injEq] at h
        obtain ⟨hevs, -⟩ := h
        intro e he
        rw [← hevs] at he
        simp only [List.mem_singleton] at he
        subst he
        rfl
      · exact absurd h (by simp)
  · split at h
    · dsimp only at h
      split at h
      · simp [Bind.bind, Except.bind, throw, throwThe, MonadExceptOf.throw] at h
      · simp only [Bind.bind, Except.bind, pure, Except.pure] at h
        obtain ⟨o1, ho1, h⟩ := bind_ok h
        obtain ⟨o2, ho2, h⟩ := bind_ok h
        obtain ⟨o3, ho3, h⟩ := bind_ok h
        obtain ⟨outputV, ho4, h⟩ := bind_ok h
        obtain ⟨tnS, ht, h⟩ := bind_ok h
        simp only [pure, Except.pure, Except.ok.injEq, Prod.mk.injEq] at h
        obtain ⟨hevs, -⟩ := h
        intro e he
        rw [← hevs] at he
        simp only [List.mem_singleton] at he
        subst he
        rfl
    · simp only [pure, Except.pure, Except.ok.injEq, Prod.mk.injEq] at h
      obtain ⟨hevs, -⟩ := h
      intro e he
      rw [← hevs] at he
      simp at he

theorem handleItem_no_killed (st : CodexEventMapper) (ctx : MapperCtx)
    (et : Str) (data : JValue) {evs : List AgentEvent} {st' : CodexEventMapper}
    (h : st.handleItem ctx et data = .ok (evs, st')) :
    ∀ e ∈ evs, e.isKilled = false := by
  unfold CodexEventMapper.handleItem at h
  obtain ⟨item, hi, h⟩ := bind_ok h
  obtain ⟨t1, h1, h⟩ := bind_ok h
  obtain ⟨itemType, h2, h⟩ := bind_ok h
  obtain ⟨i1, h3, h⟩ := bind_ok h
  obtain ⟨i2, h4, h⟩ := bind_ok h
  obtain ⟨itemId, h5, h⟩ := bind_ok h
  split at h
  · simp only [pure, Except.pure, Except.ok.injEq, Prod.mk.injEq] at h
    obtain ⟨hevs, -⟩ := h
    intro e he
    rw [← hevs] at he
    simp at he
  · split at h
    · exact handleCommand_no_killed _ _ _ _ _ h
    · split at h
      · exact handleFileChange_no_killed _ _ _ _ _ h
      · split at h
        · split at h
          · obtain ⟨x1, hx1, h⟩ := bind_ok h
            obtain ⟨x2, hx2, h⟩ := bind_ok h
            obtain ⟨x3, hx3, h⟩ := bind_ok h
            obtain ⟨text0, hx4, h⟩ := bind_ok h
            obtain ⟨text2, hx5, h⟩ := bind_ok h
            obtain ⟨msg, hx6, h⟩ := bind_ok h
            simp only [pure, Except.pure, Except.ok.injEq, Prod.mk.injEq] at h
            obtain ⟨hevs, -⟩ := h
            intro e he
            rw [← hevs] at he
            simp only [List.mem_singleton] at he
            subst he
            rfl
          · simp only [pure, Except.pure, Except.ok.injEq, Prod.mk.injEq] at h
            obtain ⟨hevs, -⟩ := h
            intro e he
            rw [← hevs] at he
            simp at he
        · split at h
          · exact handleMcp_no_killed _ _ _ _ _ h
          · split at h
            · split at h
              · obtain ⟨j1, hj1, h⟩ := bind_ok h
                obtain ⟨itemsV, hj2, h⟩ := bind_ok h
                obtain ⟨elems, hj3, h⟩ := bind_ok h
                obtain ⟨flags, hj4, h⟩ := bind_ok h
                obtain ⟨total, hj5, h⟩ := bind_ok h
                dsimp only at h
                obtain ⟨opId, hj6, h⟩ := bind_ok h
                simp only [pure, Except.pure, Except.ok.injEq, Prod.mk.injEq] at h
                obtain ⟨hevs, -⟩ := h
                intro e he
                rw [← hevs] at he
                simp only [List.mem_singleton] at he
                subst he
                rfl
              · simp only [pure, Except.pure, Except.ok.injEq, Prod.mk.injEq] at h
                obtain ⟨hevs, -⟩ := h
                intro e he
                rw [← hevs] at he
                simp at he
            · simp only [pure, Except.pure, Except.ok.injEq, Prod.mk.injEq] at h
              obtain ⟨hevs, -⟩ := h
              intro e he
              rw [← hevs] at he
              simp at he

theorem mapEvent_no_killed (st : CodexEventMapper) (ctx : MapperCtx)
    (data : JValue) {evs : List AgentEvent} {st' : CodexEventMapper}
    (h : st.mapEvent ctx data = .ok (evs, st')) :
    ∀ e ∈ evs, e.isKilled = false := by
  unfold CodexEventMapper.mapEvent at h
  obtain ⟨eventType, he, h⟩ := bind_ok h
  split at h
  · obtain ⟨s1, h1, h⟩ := bind_ok h
    obtain ⟨s2, h2, h⟩ := bind_ok h
    simp only [pure, Except.pure, Except.ok.injEq, Prod.mk.injEq] at h
    obtain ⟨hevs, -⟩ := h
    intro e hme
    rw [← hevs] at hme
    simp at hme
  · split at h
    · simp only [pure, Except.pure, Except.ok.injEq, Prod.mk.injEq] at h
      obtain ⟨hevs, -⟩ := h
      intro e hme
      rw [← hevs] at hme
      simp only [List.mem_singleton] at hme
      subst hme
      rfl
    · split at h
      · obtain ⟨usage, h1, h⟩ := bind_ok h
        obtain ⟨inTok, h2, h⟩ := bind_ok h
        obtain ⟨outTok, h3, h⟩ := bind_ok h
        simp only [pure, Except.pure, Except.ok.injEq, Prod.mk.injEq] at h
        obtain ⟨hevs, -⟩ := h
        intro e hme
        rw [← hevs] at hme
        simp only [List.mem_singleton] at hme
        subst hme
        rfl
      · split at h
        · obtain ⟨errObj, h1, h⟩ := bind_ok h
          obtain ⟨msgV, h2, h⟩ := bind_ok h
          obtain ⟨msg, h3, h⟩ := bind_ok h
          simp only [pure, Except.pure, Except.ok.injEq, Prod.mk.injEq] at h
          obtain ⟨hevs, -⟩ := h
          intro e hme
          rw [← hevs] at hme
          simp only [List.mem_singleton] at hme
          subst hme
          rfl
        · split at h
          · split at h
            · exact handleItem_no_killed _ _ _ _ h
            · simp only [pure, Except.pure, Except.ok.injEq, Prod.mk.injEq] at h
              obtain ⟨hevs, -⟩ := h
              intro e hme
              rw [← hevs] at hme
              simp at hme
          · simp only [pure, Except.pure, Except.ok.injEq, Prod.mk.injEq] at h
            obtain ⟨hevs, -⟩ := h
            intro e hme
            rw [← hevs] at hme
            simp at hme



theorem mock_scriptStep_trace (ctx : RunnerCtx) (st : MockRunner) :
    (st.scriptStep ctx).emitted = st.emitted
    ∨ ∃ env : AdapterEvent, env.event.isKilled = false
        ∧ (st.scriptStep ctx).emitted = st.emitted ++ [env] := by
  unfold MockRunner.scriptStep
  repeat' split
  all_goals try dsimp only
  repeat' split
  all_goals
    first
    | exact Or.inl rfl
    | (refine Or.inr ⟨_, ?_, rfl⟩; rfl)

theorem mock_resolve_state (st : MockRunner) (d : Str) :
    (st.resolve_decision d).2.emitted = st.emitted
    ∧ (st.resolve_decision d).2.status = st.status
    ∧ (st.resolve_decision d).2.killed = st.killed
    ∧ (st.resolve_decision d).2.completed = st.completed
    ∧ (st.resolve_decision d).2.taskAlive = st.taskAlive
    ∧ (st.resolve_decision d).2.futureLive = st.futureLive := by
  unfold MockRunner.resolve_decision
  split <;> exact ⟨rfl, rfl, rfl, rfl, rfl, rfl⟩

theorem mock_applyOps_no_killed (ctx : RunnerCtx) (ops : List RunnerOp) :
    ∀ st : MockRunner, (∀ e ∈ st.emitted, e.event.isKilled = false) →
      ∀ e ∈ (st.applyOps ctx ops).emitted, e.event.isKilled = false := by
  induction ops with
  | nil => intro st hinv; exact hinv
  | cons op ops ih =>
    intro st hinv
    refine ih (st.applyOp ctx op) ?_
    cases op with
    | step =>
      rcases mock_scriptStep_trace ctx st with h | ⟨env, henv, h⟩
      · intro e he
        rw [MockRunner.applyOp, h] at he
        exact hinv e he
      · intro e he
        rw [MockRunner.applyOp, h] at he
        rcases List.mem_append.mp he with hm | hm
        · exact hinv e hm
        · rw [List.mem_singleton.mp hm]
          exact henv
    | drain => exact hinv
    | resolve d =>
      intro e he
      rw [MockRunner.applyOp, (mock_resolve_state st d).1] at he
      exact hinv e he

theorem mock_applyOps_stable (ctx : RunnerCtx) (ops : List RunnerOp) :
    ∀ st : MockRunner, st.taskAlive = false → st.futureLive = false →
      (st.applyOps ctx ops).emitted = st.emitted
      ∧ (st.applyOps ctx ops).status = st.status
      ∧ (st.applyOps ctx ops).killed = st.killed
      ∧ (st.applyOps ctx ops).completed = st.completed
      ∧ (st.applyOps ctx ops).taskAlive = false
      ∧ (st.applyOps ctx ops).futureLive = false := by
  induction ops with
  | nil => intro st ht hf; exact ⟨rfl, rfl, rfl, rfl, ht, hf⟩
  | cons op ops ih =>
    intro st ht hf
    have key : st.applyOp ctx op = st ∨
        ((st.applyOp ctx op).emitted = st.emitted
          ∧ (st.applyOp ctx op).status = st.status
          ∧ (st.applyOp ctx op).killed = st.killed
          ∧ (st.applyOp ctx op).completed = st.completed
          ∧ (st.applyOp ctx op).taskAlive = st.taskAlive
          ∧ (st.applyOp ctx op).futureLive = st.futureLive) := by
      cases op with
      | step =>
        left
        unfold MockRunner.applyOp MockRunner.scriptStep
        simp [ht]
      | drain => right; exact ⟨rfl, rfl, rfl, rfl, rfl, rfl⟩
      | resolve d => right; exact mock_resolve_state st d
    rcases key with key | ⟨k1, k2, k3, k4, k5, k6⟩
    · have := ih (st.applyOp ctx op) (by rw [key]; exact ht) (by rw [key]; exact hf)
      rw [MockRunner.applyOps, key] at *
      exact ih st ht hf
    · obtain ⟨e', s', kl', c', t', f'⟩ :=
        ih (st.applyOp ctx op) (by rw [k5]; exact ht) (by rw [k6]; exact hf)
      exact ⟨by rw [MockRunner.applyOps] at *; rw [e', k1],
        by rw [MockRunner.applyOps] at *; rw [s', k2],
        by rw [MockRunner.applyOps] at *; rw [kl', k3],
        by rw [MockRunner.applyOps] at *; rw [c', k4],
        by rw [MockRunner.applyOps] at *; exact t',
        by rw [MockRunner.applyOps] at *; exact f'⟩

theorem codex_emit_emitted (st : CodexRunner) (ctx : RunnerCtx) (e : AgentEvent) :
    (st.emit ctx e).emitted = st.emitted ++ [(st.factory.wrap ctx.factory e).1] := rfl

theorem codex_emit2_emitted (st : CodexRunner) (ctx : RunnerCtx) (e1 e2 : AgentEvent) :
    ((st.emit ctx e1).emit ctx e2).emitted
      = st.emitted ++ [(st.factory.wrap ctx.factory e1).1,
          ((st.emit ctx e1).factory.wrap ctx.factory e2).1] := by
  rw [codex_emit_emitted, codex_emit_emitted, List.append_assoc]
  rfl

theorem codex_foldl_emit (ctx : RunnerCtx) (evs : List AgentEvent) :
    ∀ st : CodexRunner, ∃ l : List AdapterEvent,
      (evs.foldl (fun s e => s.emit ctx e) st).emitted = st.emitted ++ l
      ∧ ∀ env ∈ l, env.event ∈ evs := by
  induction evs with
  | nil => intro st; exact ⟨[], by simp, by simp⟩
  | cons e evs ih =>
    intro st
    obtain ⟨l, hl, hm⟩ := ih (st.emit ctx e)
    refine ⟨(st.factory.wrap ctx.factory e).1 :: l, ?_, ?_⟩
    · rw [List.foldl_cons, hl, codex_emit_emitted, List.append_assoc]
      rfl
    · intro env henv
      rcases List.mem_cons.mp henv with h | h
      · subst h
        exact List.mem_cons_self _ _
      · exact List.mem_cons_of_mem _ (hm env h)

theorem codex_taskStep_trace (ctx : RunnerCtx) (st : CodexRunner) :
    ∃ l : List AdapterEvent,
      (st.taskStep ctx).emitted = st.emitted ++ l
      ∧ ∀ env ∈ l, env.event.isKilled = false := by
  unfold CodexRunner.taskStep
  cases htask : st.task with
  | toSpawn lines =>
    dsimp only
    by_cases hl : st.launchOk
    · rw [if_neg (by simp [hl])]
      refine ⟨_, codex_emit_emitted st ctx _, ?_⟩
      intro env henv
      rw [List.mem_singleton.mp henv]
      rfl
    · rw [if_pos (by simp [hl])]
      refine ⟨_, codex_emit2_emitted st ctx _ _, ?_⟩
      intro env henv
      rcases List.mem_cons.mp henv with h | h
      · subst h; rfl
      · rw [List.mem_singleton.mp h]; rfl
  | reading rem =>
    cases rem with
    | nil => exact ⟨[], by simp, by simp⟩
    | cons line rest =>
      cases line with
      | none => exact ⟨[], by simp, by simp⟩
      | some data =>
        dsimp only
        rcases hmap : st.mapper.mapEvent ctx.mapper data with e | ⟨evs, mapper'⟩
        · exact ⟨[], by simp, by simp⟩
        · obtain ⟨l, hl, hm⟩ := codex_foldl_emit ctx evs st
          refine ⟨l, ?_, ?_⟩
          · dsimp only
            split
            · split
              · exact hl
              · exact hl
            · exact hl
          · intro env henv
            exact mapEvent_no_killed st.mapper ctx.mapper data hmap
              env.event (hm env henv)
  | exiting =>
    dsimp only
    by_cases hz : st.exitCode = 0
    · rw [if_pos hz]
      refine ⟨_, codex_emit_emitted st ctx _, ?_⟩
      intro env henv
      rw [List.mem_singleton.mp henv]
      rfl
    · rw [if_neg hz]
      refine ⟨_, codex_emit2_emitted st ctx _ _, ?_⟩
      intro env henv
      rcases List.mem_cons.mp henv with h | h
      · subst h; rfl
      · rw [List.mem_singleton.mp h]; rfl
  | finished => exact ⟨[], by simp, by simp⟩
  | failedTask => exact ⟨[], by simp, by simp⟩

theorem codex_applyOps_no_killed (ctx : RunnerCtx) (ops : List RunnerOp) :
    ∀ st : CodexRunner, (∀ e ∈ st.emitted, e.event.isKilled = false) →
      ∀ e ∈ (st.applyOps ctx ops).emitted, e.event.isKilled = false := by
  induction ops with
  | nil => intro st hinv; exact hinv
  | cons op ops ih =>
    intro st hinv
    refine ih (st.applyOp ctx op) ?_
    cases op with
    | step =>
      obtain ⟨l, hl, hm⟩ := codex_taskStep_trace ctx st
      intro e he
      rw [CodexRunner.applyOp, hl] at he
      rcases List.mem_append.mp he with h | h
      · exact hinv e h
      · exact hm e h
    | drain => exact hinv
    | resolve d => exact hinv

theorem codex_applyOps_stable (ctx : RunnerCtx) (ops : List RunnerOp) :
    ∀ st : CodexRunner, (st.task = .finished ∨ st.task = .failedTask) →
      (st.applyOps ctx ops).emitted = st.emitted
      ∧ (st.applyOps ctx ops).status = st.status
      ∧ (st.applyOps ctx ops).killed = st.killed
      ∧ (st.applyOps ctx ops).completed = st.completed
      ∧ ((st.applyOps ctx ops).task = .finished ∨ (st.applyOps ctx ops).task = .failedTask) := by
  induction ops with
  | nil => intro st h; exact ⟨rfl, rfl, rfl, rfl, h⟩
  | cons op ops ih =>
    intro st h
    have key : (st.applyOp ctx op).emitted = st.emitted
        ∧ (st.applyOp ctx op).status = st.status
        ∧ (st.applyOp ctx op).killed = st.killed
        ∧ (st.applyOp ctx op).completed = st.completed
        ∧ (st.applyOp ctx op).task = st.task := by
      cases op with
      | step =>
        have happ : st.applyOp ctx .step = st.taskStep ctx := rfl
        have hstep : st.taskStep ctx = st := by
          unfold CodexRunner.taskStep
          rcases h with h | h <;> rw [h]
        rw [happ, hstep]
        exact ⟨rfl, rfl, rfl, rfl, rfl⟩
      | drain => exact ⟨rfl, rfl, rfl, rfl, rfl⟩
      | resolve d => exact ⟨rfl, rfl, rfl, rfl, rfl⟩
    obtain ⟨k1, k2, k3, k4, k5⟩ := key
    obtain ⟨e', s', kl', c', t'⟩ := ih (st.applyOp ctx op) (by rw [k5]; exact h)
    refine ⟨?_, ?_, ?_, ?_, ?_⟩
    · rw [CodexRunner.applyOps, e', k1]
    · rw [CodexRunner.applyOps, s', k2]
    · rw [CodexRunner.applyOps, kl', k3]
    · rw [CodexRunner.applyOps, c', k4]
    · rw [CodexRunner.applyOps]
      exact t'

theorem mock_kill_fields (st : MockRunner) (ctx : RunnerCtx) (grace : Bool) :
    (st.kill ctx grace).1.emitted
      = st.emitted ++ [(st.factory.wrap ctx.factory (killedEvent st.agentId grace)).1]
    ∧ (st.kill ctx grace).1.status = str "completed"
    ∧ (st.kill ctx grace).1.taskAlive = false
    ∧ (st.kill ctx grace).1.futureLive = false
    ∧ (st.kill ctx grace).1.killed = true
    ∧ (st.kill ctx grace).1.completed = st.completed :=
  ⟨rfl, rfl, rfl, rfl, rfl, rfl⟩

theorem codex_kill_fields (st : CodexRunner) (ctx : RunnerCtx) (grace escalate : Bool) :
    (st.kill ctx grace escalate).1.emitted
      = st.emitted ++ [(st.factory.wrap ctx.factory
          (killedEvent st.agentId (!(if grace then escalate else true)))).1]
    ∧ (st.kill ctx grace escalate).1.status = str "completed"
    ∧ (st.kill ctx grace escalate).1.killed = true
    ∧ (st.kill ctx grace escalate).1.completed = true
    ∧ ((st.kill ctx grace escalate).1.task = .finished
        ∨ (st.kill ctx grace escalate).1.task = .failedTask) := by
  refine ⟨rfl, rfl, rfl, rfl, ?_⟩
  show (st.task.cancel = CodexTask.finished ∨ st.task.cancel = CodexTask.failedTask)
  cases st.task <;> simp [CodexTask.cancel]

/-- C4: for both runner variants, calling `kill` at any point after start
makes `is_running` false, sets the handle status to "completed", and
appends exactly one lifecycle "killed" event (whose reason notes graceful
versus forced termination) as the final event of the run: no event is
produced after it, whatever control operations and task steps follow. -/
theorem runner_kill_final_event (ctx : RunnerCtx) :
    (∀ (a w s r : Str) (grace : Bool) (ops1 ops2 : List RunnerOp),
      ((((MockRunner.init a w s r).applyOps ctx ops1).kill ctx grace).1.applyOps ctx ops2).is_running = false
      ∧ ((((MockRunner.init a w s r).applyOps ctx ops1).kill ctx grace).1.applyOps ctx ops2).status
          = str "completed"
      ∧ ((((MockRunner.init a w s r).applyOps ctx ops1).kill ctx grace).1.applyOps ctx ops2).emitted
          = ((MockRunner.init a w s r).applyOps ctx ops1).emitted
            ++ [(((MockRunner.init a w s r).applyOps ctx ops1).factory.wrap ctx.factory
                  (killedEvent ((MockRunner.init a w s r).applyOps ctx ops1).agentId grace)).1]
      ∧ (((((MockRunner.init a w s r).applyOps ctx ops1).kill ctx grace).1.applyOps ctx ops2).emitted.filter
            (fun env => env.event.isKilled)).length = 1
      ∧ (((((MockRunner.init a w s r).applyOps ctx ops1).kill ctx grace).1.applyOps ctx ops2).emitted.map
            (fun env => env.event.isKilled)).getLast? = some true)
    ∧ (∀ (a w s r : Str) (launch : Bool) (lines : List (Option JValue))
        (exitCode : Int) (stderr : Str) (grace escalate : Bool) (ops1 ops2 : List RunnerOp),
      ((((CodexRunner.init a w s r launch lines exitCode stderr).applyOps ctx ops1).kill ctx grace escalate).1.applyOps ctx ops2).is_running = false
      ∧ ((((CodexRunner.init a w s r launch lines exitCode stderr).applyOps ctx ops1).kill ctx grace escalate).1.applyOps ctx ops2).status
          = str "completed"
      ∧ ((((CodexRunner.init a w s r launch lines exitCode stderr).applyOps ctx ops1).kill ctx grace escalate).1.applyOps ctx ops2).emitted
          = ((CodexRunner.init a w s r launch lines exitCode stderr).applyOps ctx ops1).emitted
            ++ [(((CodexRunner.init a w s r launch lines exitCode stderr).applyOps ctx ops1).factory.wrap ctx.factory
                  (killedEvent ((CodexRunner.init a w s r launch lines exitCode stderr).applyOps ctx ops1).agentId
                    (!(if grace then escalate else true)))).1]
      ∧ (((((CodexRunner.init a w s r launch lines exitCode stderr).applyOps ctx ops1).kill ctx grace escalate).1.applyOps ctx ops2).emitted.filter
            (fun env => env.event.isKilled)).length = 1
      ∧ (((((CodexRunner.init a w s r launch lines exitCode stderr).applyOps ctx ops1).kill ctx grace escalate).1.applyOps ctx ops2).emitted.map
            (fun env => env.event.isKilled)).getLast? = some true) := by
  constructor
  · intro a w s r grace ops1 ops2
    obtain ⟨hk1, hk2, hk3, hk4, hk5, -⟩ :=
      mock_kill_fields ((MockRunner.init a w s r).applyOps ctx ops1) ctx grace
    obtain ⟨he, hs, hkl, -, -, -⟩ :=
      mock_applyOps_stable ctx ops2 _ hk3 hk4
    have hinv : ∀ e ∈ ((MockRunner.init a w s r).applyOps ctx ops1).emitted,
        e.event.isKilled = false := by
      refine mock_applyOps_no_killed ctx ops1 _ ?_
      intro e he
      exact absurd he (by simp [MockRunner.init])
    have hnil : ((MockRunner.init a w s r).applyOps ctx ops1).emitted.filter
        (fun env => env.event.isKilled) = [] :=
      List.filter_eq_nil_iff.mpr (fun e he => by simp [hinv e he])
    have hp : (((MockRunner.init a w s r).applyOps ctx ops1).factory.wrap ctx.factory
        (killedEvent ((MockRunner.init a w s r).applyOps ctx ops1).agentId grace)).1.event.isKilled
        = true := rfl
    refine ⟨?_, ?_, ?_, ?_, ?_⟩
    · simp [MockRunner.is_running, hkl, hk5]
    · rw [hs, hk2]
    · rw [he, hk1]
    · rw [he, hk1, List.filter_append, hnil]
      simp [hp]
    · rw [he, hk1, List.map_append]
      simp [hp]
  · intro a w s r launch lines exitCode stderr grace escalate ops1 ops2
    obtain ⟨hk1, hk2, hk3, hk4, hk5⟩ :=
      codex_kill_fields ((CodexRunner.init a w s r launch lines exitCode stderr).applyOps ctx ops1)
        ctx grace escalate
    obtain ⟨he, hs, hkl, -, -⟩ := codex_applyOps_stable ctx ops2 _ hk5
    have hinv : ∀ e ∈ ((CodexRunner.init a w s r launch lines exitCode stderr).applyOps ctx ops1).emitted,
        e.event.isKilled = false := by
      refine codex_applyOps_no_killed ctx ops1 _ ?_
      intro e he
      exact absurd he (by simp [CodexRunner.init])
    have hnil : ((CodexRunner.init a w s r launch lines exitCode stderr).applyOps ctx ops1).emitted.filter
        (fun env => env.event.isKilled) = [] :=
      List.filter_eq_nil_iff.mpr (fun e he => by simp [hinv e he])
    have hp : ∀ b : Bool, (((CodexRunner.init a w s r launch lines exitCode stderr).applyOps ctx ops1).factory.wrap ctx.factory
        (killedEvent ((CodexRunner.init a w s r launch lines exitCode stderr).applyOps ctx ops1).agentId
          b)).1.event.isKilled = true := fun b => rfl
    refine ⟨?_, ?_, ?_, ?_, ?_⟩
    · simp [CodexRunner.is_running, hkl, hk3]
    · rw [hs, hk2]
    · rw [he, hk1]
    · rw [he, hk1, List.filter_append, hnil]
      simp [hp]
    · rw [he, hk1, List.map_append]
      simp [hp]

/-- C5: when the backing process cannot be launched, the very first task
step of the run produces exactly one error event (severity "critical",
category "internal", not recoverable) immediately followed by one
completion event with outcome "abandoned" as the run's first two events
(no lifecycle "started" event precedes them, the run having emitted
nothing before), the handle status transitions to "error", and no further
event is ever produced. -/
theorem codex_launch_failure_sequence (ctx : RunnerCtx) (a w s r : Str)
    (lines : List (Option JValue)) (exitCode : Int) (stderr : Str)
    (ops : List RunnerOp) :
    (CodexRunner.init a w s r false lines exitCode stderr).emitted = []
    ∧ ((CodexRunner.init a w s r false lines exitCode stderr).taskStep ctx).emitted
      = [{ sourceEventId := ctx.factoryUuid 0,
           sourceSequence := 1,
           sourceOccurredAt := ctx.factoryTime 0,
           runId := r,
           event := .error
             { agentId := a,
               severity := str "critical",
               message := str "codex CLI not found. Install with: npm install -g @openai/codex",
               recoverable := false,
               category := str "internal" } },
         { sourceEventId := ctx.factoryUuid 1,
           sourceSequence := 2,
           sourceOccurredAt := ctx.factoryTime 1,
           runId := r,
           event := .completion
             { agentId := a,
               summary := str "Failed to start: codex CLI not found",
               outcome := str "abandoned" } }]
    ∧ ((CodexRunner.init a w s r false lines exitCode stderr).taskStep ctx).status = str "error"
    ∧ ((CodexRunner.init a w s r false lines exitCode stderr).taskStep ctx).is_running = false
    ∧ (((CodexRunner.init a w s r false lines exitCode stderr).taskStep ctx).applyOps ctx ops).emitted
      = ((CodexRunner.init a w s r false lines exitCode stderr).taskStep ctx).emitted
    ∧ (((CodexRunner.init a w s r false lines exitCode stderr).taskStep ctx).applyOps ctx ops).status
      = str "error" := by
  obtain ⟨he, hs, -, -, -⟩ :=
    codex_applyOps_stable ctx ops ((CodexRunner.init a w s r false lines exitCode stderr).taskStep ctx)
      (Or.inl rfl)
  exact ⟨rfl, rfl, rfl, rfl, he, by rw [hs]; rfl⟩

end AdapterShim
